import Mathlib

/-!
# CornersShaderEffect (src/cornersshader/cornersshader.cpp)

A shallow embedding of the KWin effect that draws rounded window corners:
the window classifier and state store, the screen texture cache, the blur
region calculator, and the properties the specification states about them.

Conventions of the embedding.
* C++ `int` values are `Int`, without overflow; `qreal`/`float` values are
  rationals `ℚ` (the conversion of a real to `int` truncates toward zero),
  and `QRectF` equality is equality of the four reals. The product and the
  sum that size the textures go through the rounding of the platform
  (`FloatArith`).
* `QMap::operator[]` is a total lookup that yields a value-initialised entry
  for a missing key; the maps are functions into `Option`.
* A `QRegion` is the finite set of pixels it covers.
* What the host (`effects`, the window, the settings provider, the Qt
  rasteriser) answers is an input of the operation that asks for it.
-/

namespace CornersShader

/-! ## Host data: geometry, windows, settings -/

/-- The `QRectF` of Qt: position and size, all reals. -/
structure QRectF where
  x : ℚ
  y : ℚ
  width : ℚ
  height : ℚ
  deriving DecidableEq

/-- `QRectF::size() != QRectF::size()` as used by `hasShadow`. -/
def QRectF.sizeNe (a b : QRectF) : Bool :=
  decide (a.width ≠ b.width) || decide (a.height ≠ b.height)

/-- The lower edge of the span `[p, p + extent]`, read from its other end
when the extent is negative. -/
def spanLow (p extent : ℚ) : ℚ := if extent < 0 then p + extent else p

/-- The upper edge of the span `[p, p + extent]`. -/
def spanHigh (p extent : ℚ) : ℚ := if extent < 0 then p else p + extent

/-- Whether two spans overlap, as `QRectF::intersects` tests it on each
axis: an empty span overlaps nothing. -/
def spansOverlap (l1 r1 l2 r2 : ℚ) : Bool :=
  if l1 = r1 then false
  else if l2 = r2 then false
  else if l1 ≥ r2 ∨ l2 ≥ r1 then false
  else true

/-- `QRectF::intersects`: a rectangle of negative extent is read from its
other edge, a rectangle with an empty side intersects nothing. -/
def QRectF.intersects (a b : QRectF) : Bool :=
  spansOverlap (spanLow a.x a.width) (spanHigh a.x a.width)
      (spanLow b.x b.width) (spanHigh b.x b.width)
    && spansOverlap (spanLow a.y a.height) (spanHigh a.y a.height)
      (spanLow b.y b.height) (spanHigh b.y b.height)

/-- The `NET::WindowType` values a window can report. -/
inductive WindowType where
  | Unknown | Normal | Desktop | Dock | Toolbar | Menu | Dialog | Override
  | TopMenu | Utility | Splash | DropdownMenu | PopupMenu | Tooltip
  | Notification | ComboBox | DNDIcon | OnScreenDisplay
  | CriticalNotification | AppletPopup
  deriving DecidableEq

/-- The corner styles of `Breeze::DecorationHelper`. -/
inductive CornersType where
  | RoundedCorners | SquircledCorners
  deriving DecidableEq

/-- The resolved settings snapshot (`Breeze::InternalSettings`), as far as
the effect reads it. -/
structure InternalSettings where
  cornersType : CornersType
  squircleRatio : Int
  cornerRadius : Int
  drawOutline : Bool
  outlineStrength : Int
  darkThemeOutline : Bool
  disableCornersShaderForMaximized : Bool
  deriving DecidableEq

/-- The `QMargins` a decoration reports through `borders()`. -/
structure Borders where
  left : Int
  top : Int
  right : Int
  bottom : Int
  deriving DecidableEq

/-- The `KDecoration2::Decoration` of a window: its borders and the size of
its shadow image, when it has a shadow. -/
structure Decoration where
  borders : Borders
  shadow : Option (Int × Int)
  deriving DecidableEq

/-- What an `EffectWindow` answers to the queries of the effect. -/
structure EffectWindow where
  id : Nat
  windowType : WindowType
  hasDecoration : Bool
  windowClass : String
  caption : String
  expandedGeometry : QRectF
  frameGeometry : QRectF
  contentsRect : QRectF
  isNormalWindow : Bool
  isDialog : Bool
  isModal : Bool
  isDesktop : Bool
  isFullScreen : Bool
  isPopupMenu : Bool
  isTooltip : Bool
  isSpecialWindow : Bool
  isDropdownMenu : Bool
  isPopupWindow : Bool
  isLockScreen : Bool
  isSplash : Bool
  isDeleted : Bool
  decoration : Option Decoration
  screen : Nat

/-- The answers of the `effects` handler and of the settings provider that
the window lifecycle handlers ask for. -/
structure Effects where
  clientAreaMaximize : EffectWindow → QRectF
  internalSettings : String → String → InternalSettings
  renderTargetRect : QRectF

/-! ## Strings: `QString::contains` -/

/-- Case folding of one character (ASCII letters). -/
def foldCase (c : Char) : Char := c.toLower

/-- Whether `needle` starts `hay`. -/
def startsWith : List Char → List Char → Bool
  | [], _ => true
  | _ :: _, [] => false
  | n :: ns, h :: hs => n == h && startsWith ns hs

/-- Whether `needle` occurs somewhere in `hay`. -/
def occursIn (needle : List Char) : List Char → Bool
  | [] => startsWith needle []
  | h :: hs => startsWith needle (h :: hs) || occursIn needle hs

/-- `QString::contains(needle, Qt::CaseInsensitive)`. -/
def containsCI (hay needle : String) : Bool :=
  occursIn (needle.data.map foldCase) (hay.data.map foldCase)

/-- Whether the text starts with `win` and one decimal digit, that is with a
match of the regular expression `win[0-9]+`. -/
def startsWinDigits : List Char → Bool
  | 'w' :: 'i' :: 'n' :: d :: _ => decide ('0' ≤ d) && decide (d ≤ '9')
  | _ => false

/-- Search of `win[0-9]+` in a character list. -/
def findWinDigits : List Char → Bool
  | [] => false
  | c :: cs => startsWinDigits (c :: cs) || findWinDigits cs

/-- `QString::contains(QRegularExpression("win[0-9]+"))`: the expression
matches somewhere in the caption. -/
def containsWinDigits (caption : String) : Bool :=
  findWinDigits caption.data

/-! ## Window state store -/

/-- The per-window record kept in `m_windows`. -/
structure WindowState where
  isManaged : Bool
  skipEffect : Bool
  hasDecoration : Bool
  shadowTexSize : Int × Int
  settings : Option InternalSettings
  deriving DecidableEq

/-- Modelled from the spec: the declaration of the per-window struct is in
cornersshader.h, which is not among the sources; a value-initialised entry
has every flag false, a zero shadow size and a null settings pointer. -/
def WindowState.fresh : WindowState :=
  { isManaged := false, skipEffect := false, hasDecoration := false,
    shadowTexSize := (0, 0), settings := none }

/-- The window part of the effect object: `m_windows`, keyed by window
identity, whether `m_shader->isValid()`, the windows handed to `redirect`
and the number of `reconfigured` connections made. -/
structure WindowStore where
  m_windows : Nat → Option WindowState
  shaderValid : Bool
  redirected : List Nat
  connections : Nat

/-- `m_windows[w]`: the entry of the window, value-initialised when absent. -/
def WindowStore.window (st : WindowStore) (k : Nat) : WindowState :=
  (st.m_windows k).getD WindowState.fresh

/-- Assignment through `m_windows[w]`. -/
def WindowStore.setWindow (st : WindowStore) (k : Nat) (ws : WindowState) : WindowStore :=
  { st with m_windows := fun j => if j = k then some ws else st.m_windows j }

/-- The static helper `hasShadow`. -/
def hasShadow (w : EffectWindow) : Bool :=
  if w.expandedGeometry.sizeNe w.frameGeometry then true else false

/-- `CornersShaderEffect::setupDecorationConnections`. -/
def setupDecorationConnections (w : EffectWindow) (st : WindowStore) : WindowStore :=
  match w.decoration with
  | none => st
  | some _ => { st with connections := st.connections + 1 }

/-- `CornersShaderEffect::windowAdded`. -/
def windowAdded (fx : Effects) (w : EffectWindow) (st : WindowStore) : WindowStore :=
  let st0 := st.setWindow w.id { st.window w.id with isManaged := false }
  if w.windowType = WindowType.OnScreenDisplay
      ∨ w.windowType = WindowType.Dock
      ∨ w.windowType = WindowType.Menu
      ∨ w.windowType = WindowType.DropdownMenu
      ∨ w.windowType = WindowType.Tooltip
      ∨ w.windowType = WindowType.ComboBox
      ∨ w.windowType = WindowType.Splash then st0
  else if (!w.hasDecoration && (containsCI w.windowClass "plasma"
      || containsCI w.windowClass "krunner"
      || containsCI w.windowClass "latte-dock"
      || containsCI w.windowClass "lattedock"
      || containsCI w.windowClass "plank"
      || containsCI w.windowClass "cairo-dock"
      || containsCI w.windowClass "albert"
      || containsCI w.windowClass "ulauncher"
      || containsCI w.windowClass "ksplash"
      || containsCI w.windowClass "ksmserver"
      || (containsCI w.windowClass "reaper" && !hasShadow w))) = true then st0
  else if (containsCI w.windowClass "jetbrains" && containsWinDigits w.caption) = true then st0
  else if (containsCI w.windowClass "plasma" && !w.isNormalWindow && !w.isDialog
      && !w.isModal) = true then st0
  else if (w.isDesktop
      || w.isFullScreen
      || w.isPopupMenu
      || w.isTooltip
      || w.isSpecialWindow
      || w.isDropdownMenu
      || w.isPopupWindow
      || w.isLockScreen
      || w.isSplash) = true then st0
  else
    let settings := fx.internalSettings w.windowClass w.caption
    let st1 := st0.setWindow w.id { st0.window w.id with settings := some settings }
    let st2 := st1.setWindow w.id { st1.window w.id with isManaged := true }
    let st3 := st2.setWindow w.id { st2.window w.id with skipEffect := false }
    let maximized_area := fx.clientAreaMaximize w
    let st4 :=
      if maximized_area = w.frameGeometry
          ∧ settings.disableCornersShaderForMaximized = true then
        st3.setWindow w.id { st3.window w.id with skipEffect := true }
      else st3
    let st5 := setupDecorationConnections w st4
    { st5 with redirected := w.id :: st5.redirected }

/-- `CornersShaderEffect::windowDeleted`. -/
def windowDeleted (w : EffectWindow) (st : WindowStore) : WindowStore :=
  { st with m_windows := fun j => if j = w.id then none else st.m_windows j }

/-- `CornersShaderEffect::windowMaximizedStateChanged`. The handler reads
`m_windows[w].settings->...`; with a null settings pointer there is no
result. -/
def windowMaximizedStateChanged (w : EffectWindow) (horizontal vertical : Bool)
    (st : WindowStore) : Option WindowStore :=
  match (st.window w.id).settings with
  | none => none
  | some settings =>
    if settings.disableCornersShaderForMaximized = false then
      some st
    else if horizontal = true ∧ vertical = true then
      some (st.setWindow w.id { st.window w.id with skipEffect := true })
    else
      some (st.setWindow w.id { st.window w.id with skipEffect := false })

/-- The `PAINT_WINDOW_TRANSFORMED` bit of a paint mask (`1 << 2` in the
effect interface of KWin). -/
def PAINT_WINDOW_TRANSFORMED : Nat := 4

/-- `CornersShaderEffect::isValidWindow`. -/
def isValidWindow (fx : Effects) (st : WindowStore) (w : EffectWindow) (mask : Nat) : Bool :=
  let screen := fx.renderTargetRect
  if (!st.shaderValid
      || !(st.window w.id).isManaged
      || w.isFullScreen
      || w.isDesktop
      || w.isSpecialWindow
      || (st.window w.id).skipEffect
      || (!screen.intersects w.frameGeometry
          && !(decide (mask &&& PAINT_WINDOW_TRANSFORMED ≠ 0)))) = true then false
  else
    match w.decoration with
    | some d =>
      if d.borders.bottom > 0 ∨ d.borders.left > 0 ∨ d.borders.right > 0 then false
      else true
    | none => true

/-! ## The classifier as the specification words it -/

/-- The window roles that are never managed. -/
def unmanagedRoles : List WindowType :=
  [WindowType.OnScreenDisplay, WindowType.Dock, WindowType.Menu, WindowType.DropdownMenu,
    WindowType.Tooltip, WindowType.ComboBox, WindowType.Splash]

/-- The shell, launcher and dock classes of the denylist. -/
def shellClasses : List String :=
  ["plasma", "krunner", "latte-dock", "lattedock", "plank", "cairo-dock", "albert",
    "ulauncher", "ksplash", "ksmserver"]

/-- Condition (a): the window type is one of the unmanaged roles. -/
def roleExcluded (w : EffectWindow) : Prop := w.windowType ∈ unmanagedRoles

/-- Condition (b): no decoration, and the class is on the denylist or is
`reaper` without a drop shadow (expanded size equal to frame size). -/
def shellExcluded (w : EffectWindow) : Prop :=
  w.hasDecoration = false ∧
    ((∃ c ∈ shellClasses, containsCI w.windowClass c = true) ∨
      (containsCI w.windowClass "reaper" = true ∧
        w.expandedGeometry.width = w.frameGeometry.width ∧
        w.expandedGeometry.height = w.frameGeometry.height))

/-- Condition (c): a `jetbrains` window whose caption holds `win` and digits. -/
def ideSubWindow (w : EffectWindow) : Prop :=
  containsCI w.windowClass "jetbrains" = true ∧ containsWinDigits w.caption = true

/-- Condition (d): a `plasma` window that is none of normal, dialog, modal. -/
def shellNonWindow (w : EffectWindow) : Prop :=
  containsCI w.windowClass "plasma" = true ∧ w.isNormalWindow = false ∧
    w.isDialog = false ∧ w.isModal = false

/-- Condition (e): desktop, full-screen, popup-menu, tooltip, special,
dropdown-menu, popup, lock-screen or splash. -/
def kindExcluded (w : EffectWindow) : Prop :=
  w.isDesktop = true ∨ w.isFullScreen = true ∨ w.isPopupMenu = true ∨ w.isTooltip = true ∨
    w.isSpecialWindow = true ∨ w.isDropdownMenu = true ∨ w.isPopupWindow = true ∨
    w.isLockScreen = true ∨ w.isSplash = true

/-- Delivery of a sequence of maximize-state events for one window, each a
pair (horizontal, vertical), in order. -/
def maximizeEvents (w : EffectWindow) : List (Bool × Bool) → WindowStore → Option WindowStore
  | [], st => some st
  | (h, v) :: rest, st =>
    match windowMaximizedStateChanged w h v st with
    | none => none
    | some st1 => maximizeEvents w rest st1

/-- The reasons for which `isValidWindow` answers false, except the one
about the decoration borders. -/
def invalidBeforeBorders (fx : Effects) (st : WindowStore) (w : EffectWindow) (mask : Nat) :
    Prop :=
  st.shaderValid = false ∨ (st.window w.id).isManaged = false ∨ w.isFullScreen = true ∨
    w.isDesktop = true ∨ w.isSpecialWindow = true ∨ (st.window w.id).skipEffect = true ∨
    (mask &&& PAINT_WINDOW_TRANSFORMED = 0 ∧
      fx.renderTargetRect.intersects w.frameGeometry = false)

/-- The decoration reports a nonzero left, right or bottom border. -/
def bordersNonzero (w : EffectWindow) : Prop :=
  ∃ d, w.decoration = some d ∧
    (d.borders.left ≠ 0 ∨ d.borders.right ≠ 0 ∨ d.borders.bottom ≠ 0)

/-- The decoration reports a positive left, right or bottom border. -/
def bordersPositive (w : EffectWindow) : Prop :=
  ∃ d, w.decoration = some d ∧
    (0 < d.borders.left ∨ 0 < d.borders.right ∨ 0 < d.borders.bottom)

/-- The left, right and bottom borders a decoration reports are widths: none
of them is negative. -/
def bordersNonNegative (w : EffectWindow) : Prop :=
  ∀ d, w.decoration = some d →
    0 ≤ d.borders.left ∧ 0 ≤ d.borders.right ∧ 0 ≤ d.borders.bottom

/-! ## Sample inputs -/

/-- A 200 by 100 rectangle at the origin. -/
def sampleRect : QRectF := { x := 0, y := 0, width := 200, height := 100 }

/-- Settings with radius 8 and no disabling for maximized windows. -/
def sampleSettings : InternalSettings :=
  { cornersType := CornersType.RoundedCorners, squircleRatio := 50, cornerRadius := 8,
    drawOutline := true, outlineStrength := 15, darkThemeOutline := false,
    disableCornersShaderForMaximized := false }

/-- Settings that disable the effect for maximized windows. -/
def maximizedOffSettings : InternalSettings :=
  { sampleSettings with disableCornersShaderForMaximized := true }

/-- A decorated normal window of class `normal-app`, 200 by 100. -/
def sampleWindow : EffectWindow :=
  { id := 1, windowType := WindowType.Normal, hasDecoration := true,
    windowClass := "normal-app", caption := "Notes",
    expandedGeometry := sampleRect, frameGeometry := sampleRect, contentsRect := sampleRect,
    isNormalWindow := true, isDialog := false, isModal := false, isDesktop := false,
    isFullScreen := false, isPopupMenu := false, isTooltip := false,
    isSpecialWindow := false, isDropdownMenu := false, isPopupWindow := false,
    isLockScreen := false, isSplash := false, isDeleted := false,
    decoration := some { borders := { left := 0, top := 30, right := 0, bottom := 0 },
                         shadow := none },
    screen := 0 }

/-- A host whose maximize area and render target are 1920 by 1080. -/
def sampleEffects : Effects :=
  { clientAreaMaximize := fun _ => { x := 0, y := 0, width := 1920, height := 1080 },
    internalSettings := fun _ _ => sampleSettings,
    renderTargetRect := { x := 0, y := 0, width := 1920, height := 1080 } }

/-- A store with a valid shader and no window. -/
def emptyStore : WindowStore :=
  { m_windows := fun _ => none, shaderValid := true, redirected := [], connections := 0 }

/-- A store that holds the sample window as managed, with the given settings. -/
def managedStore (s : InternalSettings) : WindowStore :=
  { m_windows := fun j => if j = 1 then
      some { isManaged := true, skipEffect := false, hasDecoration := true,
             shadowTexSize := (0, 0), settings := some s }
      else none,
    shaderValid := true, redirected := [1], connections := 1 }

/-! ## Images and regions -/

/-- The `QRect` of Qt, by position and size, all integers. -/
structure QRect where
  x : Int
  y : Int
  width : Int
  height : Int
  deriving DecidableEq

/-- `QRect::adjusted(dx1, dy1, dx2, dy2)`: the four edges moved. -/
def QRect.adjusted (r : QRect) (dx1 dy1 dx2 dy2 : Int) : QRect :=
  { x := r.x + dx1, y := r.y + dy1, width := r.width + dx2 - dx1,
    height := r.height + dy2 - dy1 }

/-- The two brush colours `genMaskImg` paints with. -/
inductive Colour where
  | black | white
  deriving DecidableEq

/-- The shapes `genMaskImg` draws: the ellipse inscribed in a rectangle, or
the fill polygon of `DecorationHelper::drawSquircle(size, ratio, x, y)`. -/
inductive Shape where
  | ellipse (r : QRect)
  | squircle (size ratio x y : Int)
  deriving DecidableEq

/-- The painter calls `genMaskImg` issues on its image, in order. -/
inductive PaintOp where
  | fillRect (r : QRect) (c : Colour)
  | draw (s : Shape) (c : Colour)
  | erase (s : Shape)
  deriving DecidableEq

/-- A `QImage`, transparent at first, with the painter calls made on it. A
null image has width and height 0. -/
structure QImage where
  width : Int
  height : Int
  ops : List PaintOp
  deriving DecidableEq

/-- `QImage(w, h, format)`: a null image when a side is not positive. -/
def QImage.create (w h : Int) : QImage :=
  if w ≤ 0 ∨ h ≤ 0 then { width := 0, height := 0, ops := [] }
  else { width := w, height := h, ops := [] }

/-- A painter call on an image; a painter on a null image paints nothing. -/
def QImage.paint (img : QImage) (op : PaintOp) : QImage :=
  if img.width = 0 ∨ img.height = 0 then img else { img with ops := img.ops ++ [op] }

/-- `QImage::rect()`. -/
def QImage.rect (img : QImage) : QRect :=
  { x := 0, y := 0, width := img.width, height := img.height }

/-- A `QRegion`: the finite set of the pixels it covers. -/
abbrev QRegion := Finset (Int × Int)

/-- `QRegion(x, y, w, h)`: empty when a side is not positive. -/
@[irreducible]
def rectRegion (x y w h : Int) : QRegion :=
  Finset.Ico x (x + w) ×ˢ Finset.Ico y (y + h)

/-- `QRegion::translate(dx, dy)`. -/
def translateRegion (r : QRegion) (dx dy : Int) : QRegion :=
  r.image fun p => (p.1 + dx, p.2 + dy)

/-- What the Qt rasteriser answers: whether pixel (x, y) of the painted image
is set in the bitmap that `createMaskFromColor(black, Qt::MaskOutColor)` and
`QBitmap::fromImage` make of it. -/
abbrev Rasterizer := QImage → Int → Int → Bool

/-- The region built from one quadrant of a mask image, that is
`QRegion(QBitmap::fromImage(img.copy(ox, oy, size, size).createMaskFromColor(
black, Qt::MaskOutColor)))`: the pixels of the copy that are set in the
bitmap, in the coordinates of the copy. -/
def quadrantRegion (raster : Rasterizer) (img : QImage) (ox oy size : Int) : QRegion :=
  (rectRegion 0 0 size size).filter fun p => raster img (ox + p.1) (oy + p.2)

/-- Conversion of a real to `int`: the fractional part is dropped. -/
def truncToInt (q : ℚ) : Int := if 0 ≤ q then ⌊q⌋ else ⌈q⌉

/-! ## Screen texture cache -/

/-- The corner indices `TopLeft`, `TopRight`, `BottomRight`, `BottomLeft`. -/
inductive Corner where
  | TopLeft | TopRight | BottomRight | BottomLeft
  deriving DecidableEq

/-- The per-screen record kept in `m_screens`; a texture is the image it was
uploaded from, a null pointer is `none`. -/
structure ScreenState where
  scale : ℚ
  sizeScaled : ℚ
  maskTex : Option QImage
  lightOutlineTex : Option QImage
  darkOutlineTex : Option QImage
  maskRegion : Corner → Option QRegion

/-- Modelled from the spec: the declaration of the per-screen struct is in
cornersshader.h, which is not among the sources. The scaled radius is a real
(logical radius times scale factor), a new entry has scale factor 1, no
texture and no region. -/
def ScreenState.fresh : ScreenState :=
  { scale := 1, sizeScaled := 0, maskTex := none, lightOutlineTex := none,
    darkOutlineTex := none, maskRegion := fun _ => none }

/-- The screen part of the effect object. -/
structure ScreenCache where
  m_screens : Option Nat → Option ScreenState
  m_size : Int
  m_shadowOffset : Int
  m_settings : InternalSettings

/-- `m_screens[s]`: the entry of the screen, value-initialised when absent. -/
def ScreenCache.screen (c : ScreenCache) (k : Option Nat) : ScreenState :=
  (c.m_screens k).getD ScreenState.fresh

/-- Assignment through `m_screens[s]`. -/
def ScreenCache.setScreen (c : ScreenCache) (k : Option Nat) (e : ScreenState) : ScreenCache :=
  { c with m_screens := fun j => if j = k then some e else c.m_screens j }

/-- The key under which a screen is cached: the screen itself on Wayland,
the null pointer when there is no Wayland display. -/
def screenKey (wayland : Bool) (s : Nat) : Option Nat :=
  if wayland then some s else none

/-- `CornersShaderEffect::genMaskImg`, reading `m_shadowOffset` and the
corner style of `m_settings`. -/
def genMaskImg (settings : InternalSettings) (m_shadowOffset : Int) (size : Int)
    (mask outer_rect : Bool) : QImage :=
  let img := QImage.create (size * 2) (size * 2)
  let r := img.rect
  let offset_decremented := if outer_rect then m_shadowOffset - 1 else m_shadowOffset
  if mask then
    let img1 := img.paint (PaintOp.fillRect img.rect Colour.black)
    if settings.cornersType = CornersType.SquircledCorners then
      img1.paint (PaintOp.erase (Shape.squircle (size - m_shadowOffset)
        settings.squircleRatio m_shadowOffset m_shadowOffset))
    else
      img1.paint (PaintOp.erase (Shape.ellipse
        (r.adjusted m_shadowOffset m_shadowOffset (-m_shadowOffset) (-m_shadowOffset))))
  else
    let r1 := r.adjusted offset_decremented offset_decremented (-offset_decremented)
      (-offset_decremented)
    let brush := if outer_rect then Colour.black else Colour.white
    let img1 :=
      if settings.cornersType = CornersType.SquircledCorners then
        img.paint (PaintOp.draw (Shape.squircle (size - offset_decremented)
          settings.squircleRatio offset_decremented offset_decremented) brush)
      else
        img.paint (PaintOp.draw (Shape.ellipse r1) brush)
    let r2 := r1.adjusted 1 1 (-1) (-1)
    if settings.cornersType = CornersType.SquircledCorners then
      img1.paint (PaintOp.erase (Shape.squircle (size - (offset_decremented + 1))
        settings.squircleRatio (offset_decremented + 1) (offset_decremented + 1)))
    else
      img1.paint (PaintOp.erase (Shape.ellipse r2))

/-- The four corner regions `genMasks` derives from the mask image of the
logical size. -/
def cornerRegions (raster : Rasterizer) (img : QImage) (size : Int) : Corner → Option QRegion
  | Corner.TopLeft => some (quadrantRegion raster img 0 0 size)
  | Corner.TopRight => some (quadrantRegion raster img size 0 size)
  | Corner.BottomRight => some (quadrantRegion raster img size size size)
  | Corner.BottomLeft => some (quadrantRegion raster img 0 size size)

/-- The floating-point arithmetic of the platform, as far as the cache uses
it: the value that `r * scale` leaves in `sizeScaled`, and the value of
`sizeScaled + m_shadowOffset` before its conversion to `int`, each as a
function of the exact result. Rounding keeps the order, and a result
`m / 2 ^ k` with `|m| ≤ 2 ^ 24` and `k ≤ 64` is representable and therefore
not changed (IEEE single and double precision both satisfy this). -/
structure FloatArith where
  roundProduct : ℚ → ℚ
  roundSum : ℚ → ℚ
  roundProduct_mono : ∀ x y : ℚ, x ≤ y → roundProduct x ≤ roundProduct y
  roundSum_mono : ∀ x y : ℚ, x ≤ y → roundSum x ≤ roundSum y
  roundProduct_exact : ∀ (m : Int) (k : Nat), |m| ≤ 16777216 → k ≤ 64 →
    roundProduct ((m : ℚ) / 2 ^ k) = (m : ℚ) / 2 ^ k
  roundSum_exact : ∀ (m : Int) (k : Nat), |m| ≤ 16777216 → k ≤ 64 →
    roundSum ((m : ℚ) / 2 ^ k) = (m : ℚ) / 2 ^ k

/-- What the platform answers to the cache: the Qt rasteriser and the
floating-point arithmetic. -/
structure Platform where
  raster : Rasterizer
  arith : FloatArith

/-- `CornersShaderEffect::genMasks`. -/
def genMasks (pf : Platform) (s : Option Nat) (c : ScreenCache) : ScreenCache :=
  let size := truncToInt (pf.arith.roundSum ((c.screen s).sizeScaled + c.m_shadowOffset))
  let img := genMaskImg c.m_settings c.m_shadowOffset size true false
  let c1 := c.setScreen s { c.screen s with maskTex := some img }
  let size2 := c1.m_size + c1.m_shadowOffset
  let img2 := genMaskImg c1.m_settings c1.m_shadowOffset size2 true false
  c1.setScreen s { c1.screen s with maskRegion := cornerRegions pf.raster img2 size2 }

/-- `CornersShaderEffect::genRect`. -/
def genRect (pf : Platform) (s : Option Nat) (c : ScreenCache) : ScreenCache :=
  let size := truncToInt (pf.arith.roundSum ((c.screen s).sizeScaled + c.m_shadowOffset))
  let img := genMaskImg c.m_settings c.m_shadowOffset size false false
  let c1 := c.setScreen s { c.screen s with lightOutlineTex := some img }
  let img2 := genMaskImg c1.m_settings c1.m_shadowOffset size false true
  c1.setScreen s { c1.screen s with darkOutlineTex := some img2 }

/-- `CornersShaderEffect::setRoundness`. -/
def setRoundness (pf : Platform) (r : Int) (s : Option Nat) (c : ScreenCache) :
    ScreenCache :=
  let c1 := { c with m_size := r }
  let c2 := c1.setScreen s
    { c1.screen s with sizeScaled := pf.arith.roundProduct (r * (c1.screen s).scale) }
  genRect pf s (genMasks pf s c2)

/-- The shadow offset `reconfigure` settles on for a corner radius. -/
def clampedShadowOffset (cornerRadius : Int) : Int :=
  let m_shadowOffset : Int := 2
  if m_shadowOffset ≥ cornerRadius then cornerRadius - 1 else m_shadowOffset

/-- The loop of `reconfigure` over `effects->screens()`: every screen on
Wayland, the null key once otherwise. -/
def forEachScreen (wayland : Bool) (screens : List Nat)
    (body : Option Nat → ScreenCache → ScreenCache) (c : ScreenCache) : ScreenCache :=
  if wayland then screens.foldl (fun acc s => body (some s) acc) c
  else
    match screens with
    | [] => c
    | _ :: _ => body none c

/-- `CornersShaderEffect::reconfigure`, with the default settings the
provider hands out. -/
def reconfigure (pf : Platform) (wayland : Bool) (screens : List Nat)
    (defaultSettings : InternalSettings) (c : ScreenCache) : ScreenCache :=
  let c1 := { c with m_settings := defaultSettings }
  let c2 := { c1 with m_shadowOffset := clampedShadowOffset c1.m_settings.cornerRadius }
  forEachScreen wayland screens (setRoundness pf c2.m_settings.cornerRadius) c2

/-- The body of the constructor's loop over the screens: the pointers of
the entry are set to null. -/
def initScreen (s : Option Nat) (c : ScreenCache) : ScreenCache :=
  c.setScreen s
    { c.screen s with maskRegion := fun _ => none, maskTex := none,
                      lightOutlineTex := none, darkOutlineTex := none }

/-- The screen part of the constructor: an entry without textures for every
screen, then `reconfigure`. The argument `size0` stands for the value of
`m_size` before its first assignment. -/
def construct (pf : Platform) (wayland : Bool) (screens : List Nat)
    (defaultSettings : InternalSettings) (size0 : Int) : ScreenCache :=
  let c0 : ScreenCache :=
    { m_screens := fun _ => none, m_size := size0, m_shadowOffset := 0,
      m_settings := defaultSettings }
  let c1 := forEachScreen wayland screens initScreen c0
  reconfigure pf wayland screens defaultSettings c1

/-- The local `set_roundness` of `paintScreen`: whether the render-target
scale differs from the cached scale of the screen. -/
def paintScreenSetRoundness (wayland : Bool) (screen : Nat) (scale : ℚ) (c : ScreenCache) :
    Bool :=
  decide (scale ≠ (c.screen (screenKey wayland screen)).scale)

/-- `CornersShaderEffect::paintScreen`, up to the delegation to the host. -/
def paintScreen (pf : Platform) (wayland : Bool) (screen : Nat) (scale : ℚ)
    (c : ScreenCache) : ScreenCache :=
  let s := screenKey wayland screen
  let set_roundness := paintScreenSetRoundness wayland screen scale c
  let c0 := c.setScreen s (c.screen s)
  let c1 :=
    if scale ≠ (c0.screen s).scale then c0.setScreen s { c0.screen s with scale := scale }
    else c0
  if set_roundness = true then setRoundness pf c1.m_settings.cornerRadius s c1
  else c1

/-! ## Blur region calculator -/

/-- What the host answers to the blur queries of `prePaintWindow`: whether
there is an XCB connection, the atom `announceSupportProperty` returns, the
bytes `readProperty` returns (`none` for a null array), and for an internal
window the `kwin_blur` property when it is valid. -/
structure BlurInputs where
  xcbConnection : Bool
  blurAtom : Int
  propertyValue : Option (List Nat)
  internalBlur : Option (Option QRegion)

/-- The 32-bit cardinals of a byte array, as `reinterpret_cast` reads them
on a little-endian host. -/
def cardinalsOf : List Nat → List Nat
  | a :: b :: c :: d :: rest => (a + 256 * b + 65536 * c + 16777216 * d) :: cardinalsOf rest
  | _ => []

/-- Conversion of a 32-bit cardinal to `int`. -/
def toInt32 (u : Nat) : Int := if u < 2147483648 then (u : Int) else (u : Int) - 4294967296

/-- The loop over the cardinals: each group of four is a rectangle
(x, y, w, h) added to the region. -/
def addBlurRects : List Nat → QRegion → QRegion
  | x :: y :: w :: h :: rest, blur_region =>
    addBlurRects rest
      (blur_region ∪ rectRegion (toInt32 x) (toInt32 y) (toInt32 w) (toInt32 h))
  | _, blur_region => blur_region

/-- The region `blur_region` holds after the property and the internal
window have been read: the declared blur-behind region. -/
def declaredBlurRegion (inp : BlurInputs) : QRegion :=
  let net_wm_blur_region : Int := if inp.xcbConnection then inp.blurAtom else 0
  let blur_region : QRegion :=
    if net_wm_blur_region ≠ 0 then
      match inp.propertyValue with
      | some value =>
        if value.length > 0 ∧ value.length % 16 = 0 then addBlurRects (cardinalsOf value) ∅
        else ∅
      | none => ∅
    else ∅
  match inp.internalBlur with
  | some (some region) => region
  | _ => blur_region

/-- The region the corner subtraction starts from, `none` when the blur
block is skipped. -/
def blurStartRegion (w : EffectWindow) (blur_region : QRegion) : Option QRegion :=
  let geo := w.frameGeometry
  if blur_region ≠ ∅ ∨ containsCI w.windowClass "konsole" = true
      ∨ containsCI w.windowClass "yakuake" = true then
    if containsCI w.windowClass "konsole" = true
        ∨ containsCI w.windowClass "yakuake" = true then
      some (rectRegion 0 0 (truncToInt geo.width) (truncToInt geo.height))
    else some blur_region
  else none

/-- The four subtractions of the blur block: each corner region translated
to its corner and taken out of the region. -/
def subtractCorners (m_size m_shadowOffset : Int) (w : EffectWindow)
    (maskRegion : Corner → QRegion) (blur_region : QRegion) : QRegion :=
  let geo := w.frameGeometry
  let top_left := translateRegion (maskRegion Corner.TopLeft) (0 - m_shadowOffset + 1)
    (truncToInt (-(geo.height - w.contentsRect.height) - m_shadowOffset + 1))
  let blur1 := blur_region \ top_left
  let top_right := translateRegion (maskRegion Corner.TopRight)
    (truncToInt (geo.width - m_size - 1))
    (truncToInt (-(geo.height - w.contentsRect.height) - m_shadowOffset + 1))
  let blur2 := blur1 \ top_right
  let bottom_right := translateRegion (maskRegion Corner.BottomRight)
    (truncToInt (geo.width - m_size - 1)) (truncToInt (w.contentsRect.height - m_size - 1))
  let blur3 := blur2 \ bottom_right
  let bottom_left := translateRegion (maskRegion Corner.BottomLeft) (0 - m_shadowOffset + 1)
    (truncToInt (w.contentsRect.height - m_size - 1))
  blur3 \ bottom_left

/-- The blur block of `CornersShaderEffect::prePaintWindow`: the region
handed to `KWindowEffects::enableBlurBehind`, `some none` when no request is
made, and no result when a corner region of the screen is a null pointer.
The header gives `isValidWindow` its default mask, taken to be 0. -/
def prePaintWindowBlur (fx : Effects) (st : WindowStore) (wayland : Bool) (c : ScreenCache)
    (w : EffectWindow) (inp : BlurInputs) : Option (Option QRegion) :=
  if isValidWindow fx st w 0 = false then some none
  else
    let s := screenKey wayland w.screen
    match (c.screen s).maskRegion Corner.TopLeft, (c.screen s).maskRegion Corner.TopRight,
      (c.screen s).maskRegion Corner.BottomRight, (c.screen s).maskRegion Corner.BottomLeft with
    | some tl, some tr, some br, some bl =>
      let maskRegion : Corner → QRegion := fun corner =>
        match corner with
        | Corner.TopLeft => tl
        | Corner.TopRight => tr
        | Corner.BottomRight => br
        | Corner.BottomLeft => bl
      some ((blurStartRegion w (declaredBlurRegion inp)).map
        (subtractCorners c.m_size c.m_shadowOffset w maskRegion))
    | _, _, _, _ => none

/-! ## The cache as the specification words it -/

/-- The size `genMasks` and `genRect` pass to `genMaskImg` for the textures
of a screen: scaled radius plus shadow offset, converted to `int`. -/
def atlasSize (pf : Platform) (c : ScreenCache) (s : Option Nat) : Int :=
  truncToInt (pf.arith.roundSum ((c.screen s).sizeScaled + c.m_shadowOffset))

/-- The entry a rebuild leaves for a screen of scale factor `scale`, given
the settings, the shadow offset and the logical radius. -/
def builtEntry (pf : Platform) (settings : InternalSettings) (offset r : Int)
    (scale : ℚ) : ScreenState :=
  { scale := scale,
    sizeScaled := pf.arith.roundProduct (r * scale),
    maskTex := some (genMaskImg settings offset
      (truncToInt (pf.arith.roundSum (pf.arith.roundProduct (r * scale) + offset))) true false),
    lightOutlineTex := some (genMaskImg settings offset
      (truncToInt (pf.arith.roundSum (pf.arith.roundProduct (r * scale) + offset))) false false),
    darkOutlineTex := some (genMaskImg settings offset
      (truncToInt (pf.arith.roundSum (pf.arith.roundProduct (r * scale) + offset))) false true),
    maskRegion :=
      cornerRegions pf.raster (genMaskImg settings offset (r + offset) true false)
        (r + offset) }

/-- The keys under which the screens of the host are cached. -/
def cachedKeys (wayland : Bool) (screens : List Nat) : List (Option Nat) :=
  if wayland then screens.map some
  else
    match screens with
    | [] => []
    | _ :: _ => [none]

/-- The side of the image `genMaskImg` returns for a size: twice the size,
or 0 (a null image) when the size is not positive. -/
def imageSide (size : Int) : Int := if 0 < size then 2 * size else 0

/-- The states of the screen cache that the effect reaches in a host with
the given screens: the state the constructor leaves, and the states after a
reconfiguration or after `paintScreen` for one of the screens. -/
inductive Reachable (pf : Platform) (wayland : Bool) (screens : List Nat) :
    ScreenCache → Prop where
  | construct (settings : InternalSettings) (size0 : Int) :
      Reachable pf wayland screens (construct pf wayland screens settings size0)
  | reconfigure (settings : InternalSettings) (c : ScreenCache) :
      Reachable pf wayland screens c →
      Reachable pf wayland screens (reconfigure pf wayland screens settings c)
  | paintScreen (screen : Nat) (scale : ℚ) (c : ScreenCache) :
      screen ∈ screens → Reachable pf wayland screens c →
      Reachable pf wayland screens (paintScreen pf wayland screen scale c)

/-- Consistency of the cache with the configuration: the shadow offset is
the clamped one, the logical radius is the configured one, the cached keys
are those of the host, and every entry is the one a rebuild produces for
its scale factor. -/
def CacheConsistent (pf : Platform) (wayland : Bool) (screens : List Nat)
    (c : ScreenCache) : Prop :=
  c.m_shadowOffset = clampedShadowOffset c.m_settings.cornerRadius ∧
    (screens ≠ [] → c.m_size = c.m_settings.cornerRadius) ∧
    (∀ j, j ∈ cachedKeys wayland screens ↔ ∃ e, c.m_screens j = some e) ∧
    ∀ j e, c.m_screens j = some e →
      e = builtEntry pf c.m_settings c.m_shadowOffset c.m_settings.cornerRadius e.scale

/-- The window class names a terminal emulator the blur block knows. -/
def isTerminalClass (w : EffectWindow) : Prop :=
  containsCI w.windowClass "konsole" = true ∨ containsCI w.windowClass "yakuake" = true

/-- Where the blur block moves the region of a corner: the translation it
applies, in the coordinates of the blur region. -/
def notchOrigin (c : ScreenCache) (w : EffectWindow) : Corner → Int × Int
  | Corner.TopLeft =>
    (1 - c.m_shadowOffset,
      truncToInt (-(w.frameGeometry.height - w.contentsRect.height) - c.m_shadowOffset + 1))
  | Corner.TopRight =>
    (truncToInt (w.frameGeometry.width - c.m_size - 1),
      truncToInt (-(w.frameGeometry.height - w.contentsRect.height) - c.m_shadowOffset + 1))
  | Corner.BottomRight =>
    (truncToInt (w.frameGeometry.width - c.m_size - 1),
      truncToInt (w.contentsRect.height - c.m_size - 1))
  | Corner.BottomLeft =>
    (1 - c.m_shadowOffset, truncToInt (w.contentsRect.height - c.m_size - 1))

/-- The corner region of the logical radius, as `genMasks` derives it. -/
def logicalCornerRegion (pf : Platform) (c : ScreenCache) (corner : Corner) : QRegion :=
  (cornerRegions pf.raster
    (genMaskImg c.m_settings c.m_shadowOffset (c.m_size + c.m_shadowOffset) true false)
    (c.m_size + c.m_shadowOffset) corner).getD ∅

/-- The notch of a corner: its corner region moved to the corner. -/
def notch (pf : Platform) (c : ScreenCache) (w : EffectWindow) (corner : Corner) :
    QRegion :=
  translateRegion (logicalCornerRegion pf c corner) (notchOrigin c w corner).1
    (notchOrigin c w corner).2

/-- The rectangle covering the content rect of a window. -/
def contentsRegion (w : EffectWindow) : QRegion :=
  rectRegion (truncToInt w.contentsRect.x) (truncToInt w.contentsRect.y)
    (truncToInt w.contentsRect.width) (truncToInt w.contentsRect.height)

/-- The rectangle of the size of the frame, at the origin. -/
def frameSizeRegion (w : EffectWindow) : QRegion :=
  rectRegion 0 0 (truncToInt w.frameGeometry.width) (truncToInt w.frameGeometry.height)

/-- Settings with the given corner radius. -/
def settingsWithRadius (r : Int) : InternalSettings :=
  { sampleSettings with cornerRadius := r }

/-- A rasteriser for the sample inputs: every pixel is set. -/
def sampleRaster : Rasterizer := fun _ _ _ => true

/-- Arithmetic without rounding error. The products and sums of the sample
inputs are small multiples of powers of 1/2, which every arithmetic of the
kind described by `FloatArith` computes exactly. -/
def exactArith : FloatArith :=
  { roundProduct := fun x => x,
    roundSum := fun x => x,
    roundProduct_mono := fun _ _ h => h,
    roundSum_mono := fun _ _ h => h,
    roundProduct_exact := fun _ _ _ _ => rfl,
    roundSum_exact := fun _ _ _ _ => rfl }

/-- The platform of the sample inputs. -/
def samplePlatform : Platform := { raster := sampleRaster, arith := exactArith }

/-- A cache without entries, with radius 8 configured. -/
def emptyCache : ScreenCache :=
  { m_screens := fun _ => none, m_size := 8, m_shadowOffset := 2,
    m_settings := sampleSettings }

/-- The cache of a host without Wayland and with one screen, constructed
with radius 0 configured. -/
def zeroRadiusCache : ScreenCache :=
  construct samplePlatform false [0] (settingsWithRadius 0) 0

/-- The cache of a host without Wayland and with one screen, constructed
with radius 3 configured and painted once at scale 5/4. -/
def fractionalScaleCache : ScreenCache :=
  paintScreen samplePlatform false 0 (5 / 4) (construct samplePlatform false [0]
    (settingsWithRadius 3) 0)

/-- The cache of a host without Wayland and with one screen, constructed
with radius 10 configured. -/
def tenRadiusCache (pf : Platform) : ScreenCache :=
  construct pf false [0] (settingsWithRadius 10) 0

/-- The cache of a host without Wayland and with one screen, constructed
with radius 8 configured. -/
def eightRadiusCache (pf : Platform) : ScreenCache :=
  construct pf false [0] (settingsWithRadius 8) 0

/-- An undecorated managed window of class `normal-app`, frame and contents
200 by 100. -/
def blurWindow : EffectWindow := { sampleWindow with decoration := none }

/-- The same window with class `konsole`. -/
def konsoleWindow : EffectWindow := { blurWindow with windowClass := "konsole" }

/-- A `konsole` window with a title bar of height 30: frame 200 by 130,
contents 200 by 100. -/
def konsoleTitleWindow : EffectWindow :=
  { konsoleWindow with
    frameGeometry := { x := 0, y := 0, width := 200, height := 130 }
    contentsRect := { x := 0, y := 30, width := 200, height := 100 } }

/-- A blur property that declares the rectangle (0, 0, 200, 100). -/
def rectBlurInputs : BlurInputs :=
  { xcbConnection := true, blurAtom := 400,
    propertyValue := some [0, 0, 0, 0, 0, 0, 0, 0, 200, 0, 0, 0, 100, 0, 0, 0],
    internalBlur := none }

/-- A blur property that declares the rectangle (0, 0, 10, 10). -/
def smallBlurInputs : BlurInputs :=
  { rectBlurInputs with
    propertyValue := some [0, 0, 0, 0, 0, 0, 0, 0, 10, 0, 0, 0, 10, 0, 0, 0] }

/-- No blur property and no internal window. -/
def noBlurInputs : BlurInputs :=
  { xcbConnection := true, blurAtom := 400, propertyValue := none, internalBlur := none }

/-! ## Further sample inputs -/

/-- The sample window as a dock, under another identity. -/
def dockWindow : EffectWindow :=
  { sampleWindow with id := 2, windowType := WindowType.Dock }

/-- The sample window in full-screen mode. -/
def fullScreenWindow : EffectWindow := { sampleWindow with isFullScreen := true }

/-- A host whose maximize area is the rectangle of the sample window and
whose settings disable the effect for maximized windows. -/
def maximizedEffects : Effects :=
  { clientAreaMaximize := fun _ => sampleRect,
    internalSettings := fun _ _ => maximizedOffSettings,
    renderTargetRect := { x := 0, y := 0, width := 1920, height := 1080 } }

/-- Agreement of two windows on the inputs the specification names for the
classifier: role, class, caption, decoration presence, the normal, dialog
and modal flags, and the has-shadow flag. -/
def classifierInputsAgree (w1 w2 : EffectWindow) : Prop :=
  w1.windowType = w2.windowType ∧ w1.windowClass = w2.windowClass ∧
    w1.caption = w2.caption ∧ w1.hasDecoration = w2.hasDecoration ∧
    w1.isNormalWindow = w2.isNormalWindow ∧ w1.isDialog = w2.isDialog ∧
    w1.isModal = w2.isModal ∧ hasShadow w1 = hasShadow w2

/-- Agreement of two windows on the kind flags of the last short-circuit:
desktop, full-screen, popup-menu, tooltip, special, dropdown-menu, popup,
lock-screen and splash. -/
def kindFlagsAgree (w1 w2 : EffectWindow) : Prop :=
  w1.isDesktop = w2.isDesktop ∧ w1.isFullScreen = w2.isFullScreen ∧
    w1.isPopupMenu = w2.isPopupMenu ∧ w1.isTooltip = w2.isTooltip ∧
    w1.isSpecialWindow = w2.isSpecialWindow ∧ w1.isDropdownMenu = w2.isDropdownMenu ∧
    w1.isPopupWindow = w2.isPopupWindow ∧ w1.isLockScreen = w2.isLockScreen ∧
    w1.isSplash = w2.isSplash

/-- Whether the window fills the maximize area and its resolved settings
disable the effect for maximized windows. -/
def maximizedAndDisabled (fx : Effects) (w : EffectWindow) : Bool :=
  decide (fx.clientAreaMaximize w = w.frameGeometry) &&
    (fx.internalSettings w.windowClass w.caption).disableCornersShaderForMaximized

/-! ## Reading the blur property, index by index -/

/-- The element `cardinals[i]` of the byte array read as 32-bit cardinals
(little-endian host); no result when one of its four bytes lies outside the
array. -/
def cardinalAt (value : List Nat) (i : Nat) : Option Nat :=
  match value[4 * i]?, value[4 * i + 1]?, value[4 * i + 2]?, value[4 * i + 3]? with
  | some a, some b, some c, some d => some (a + 256 * b + 65536 * c + 16777216 * d)
  | _, _, _, _ => none

/-- What reading the property yields: the region, and the indices of the
cardinals that were read, in order. -/
structure BlurParse where
  blur_region : QRegion
  reads : List Nat

/-- The loop `for (i = 0; i < value.size() / sizeof(uint32_t);)` of
`prePaintWindow`, four reads `cardinals[i++]` and one `blur_region += QRect`
per round. The first argument bounds the number of rounds; there is no
result when it is used up or when a read falls outside the array. -/
def blurRectLoop (value : List Nat) : Nat → Nat → BlurParse → Option BlurParse
  | 0, i, acc => if i < value.length / 4 then none else some acc
  | fuel + 1, i, acc =>
    if i < value.length / 4 then
      match cardinalAt value i, cardinalAt value (i + 1), cardinalAt value (i + 2),
        cardinalAt value (i + 3) with
      | some x, some y, some w, some h =>
        blurRectLoop value fuel (i + 4)
          { blur_region :=
              acc.blur_region ∪ rectRegion (toInt32 x) (toInt32 y) (toInt32 w) (toInt32 h),
            reads := acc.reads ++ [i, i + 1, i + 2, i + 3] }
      | _, _, _, _ => none
    else some acc

/-- The body of `if (net_wm_blur_region != XCB_ATOM_NONE)`: the property value
(`none` for a null array) is parsed when its size is positive and a multiple
of `4 * sizeof(uint32_t)`. -/
def readBlurProperty (value : Option (List Nat)) : Option BlurParse :=
  match value with
  | none => some { blur_region := ∅, reads := [] }
  | some v =>
    if v.length > 0 ∧ v.length % 16 = 0 then
      blurRectLoop v v.length 0 { blur_region := ∅, reads := [] }
    else some { blur_region := ∅, reads := [] }

/-- The 32-bit cardinal at index `i` of a byte array, bytes outside the
array counted as 0. -/
def cardinalValue (value : List Nat) (i : Nat) : Nat :=
  (value[4 * i]?).getD 0 + 256 * (value[4 * i + 1]?).getD 0 +
    65536 * (value[4 * i + 2]?).getD 0 + 16777216 * (value[4 * i + 3]?).getD 0

/-- The rectangle (x, y, w, h) of the group `g` of four cardinals. -/
def blurGroupRect (value : List Nat) (g : Nat) : QRegion :=
  rectRegion (toInt32 (cardinalValue value (4 * g)))
    (toInt32 (cardinalValue value (4 * g + 1)))
    (toInt32 (cardinalValue value (4 * g + 2)))
    (toInt32 (cardinalValue value (4 * g + 3)))

/-! ## Per-frame render driver -/

/-- The shaders the shader manager can hold: the corner shader `m_shader`,
or a shader of the host. -/
inductive Shader where
  | corners
  | host (n : Nat)
  deriving DecidableEq

/-- A value uploaded to a uniform of the corner shader. -/
inductive UniformValue where
  | real (v : ℚ)
  | flag (b : Bool)
  | vec2 (a b : ℚ)
  | vec3 (a b c : ℚ)
  deriving DecidableEq

/-- The paint primitives `drawWindow` delegates to, with the window painted. -/
inductive DrawCall where
  | hostDefault (window : Nat)
  | offscreen (window : Nat)
  deriving DecidableEq

/-- The global render state: the stack of the shader manager, the active
texture unit, the 2D texture bound to each unit, the uniforms uploaded to
the corner shader and the paint primitives called, latest last. -/
structure RenderState where
  shaderStack : List Shader
  activeTexture : Nat
  boundTexture : Nat → Option QImage
  uniforms : List (String × UniformValue)
  drawCalls : List DrawCall

/-- `ShaderManager::pushShader`. -/
def pushShader (s : Shader) (rs : RenderState) : RenderState :=
  { rs with shaderStack := s :: rs.shaderStack }

/-- `ShaderManager::popShader`. -/
def popShader (rs : RenderState) : RenderState :=
  { rs with shaderStack := rs.shaderStack.tail }

/-- `glActiveTexture(GL_TEXTURE0 + unit)`. -/
def glActiveTexture (unit : Nat) (rs : RenderState) : RenderState :=
  { rs with activeTexture := unit }

/-- `GLTexture::bind`, that is `glBindTexture(target, texture)`: the texture
becomes the one bound to the active unit. -/
def bindTexture (tex : QImage) (rs : RenderState) : RenderState :=
  { rs with boundTexture := fun u => if u = rs.activeTexture then some tex
                                     else rs.boundTexture u }

/-- `GLTexture::unbind`, that is `glBindTexture(target, 0)`: the active unit
is left without a texture. -/
def unbindTexture (rs : RenderState) : RenderState :=
  { rs with boundTexture := fun u => if u = rs.activeTexture then none
                                     else rs.boundTexture u }

/-- `GLShader::setUniform` on the corner shader, by uniform name. -/
def setUniform (name : String) (v : UniformValue) (rs : RenderState) : RenderState :=
  { rs with uniforms := rs.uniforms ++ [(name, v)] }

/-- `effects->drawWindow`, the default window paint of the host, taken to
leave the render state as it finds it. -/
def hostDrawWindow (w : EffectWindow) (rs : RenderState) : RenderState :=
  { rs with drawCalls := rs.drawCalls ++ [DrawCall.hostDefault w.id] }

/-- `OffscreenEffect::drawWindow`, the offscreen paint of the host, taken to
leave the render state as it finds it. -/
def offscreenDrawWindow (w : EffectWindow) (rs : RenderState) : RenderState :=
  { rs with drawCalls := rs.drawCalls ++ [DrawCall.offscreen w.id] }

/-- `CornersShaderEffect::scale`. -/
def scale (rect : QRectF) (scaleFactor : ℚ) : QRectF :=
  { x := rect.x * scaleFactor, y := rect.y * scaleFactor,
    width := rect.width * scaleFactor, height := rect.height * scaleFactor }

/-- `CornersShaderEffect::drawWindow`. There is no result when the settings
pointer of the window or a texture pointer of the screen is null. -/
def drawWindow (fx : Effects) (st : WindowStore) (wayland : Bool) (c : ScreenCache)
    (w : EffectWindow) (mask : Nat) (rs : RenderState) : Option RenderState :=
  if isValidWindow fx st w mask = false then some (hostDrawWindow w rs)
  else
    let s := screenKey wayland w.screen
    let geo := w.frameGeometry
    let exp_geo := w.expandedGeometry
    let contents_geo := w.contentsRect
    let geo_scaled := scale geo (c.screen s).scale
    let contents_geo_scaled := scale contents_geo (c.screen s).scale
    let exp_geo_scaled := scale exp_geo (c.screen s).scale
    match (st.window w.id).settings, (c.screen s).darkOutlineTex,
      (c.screen s).lightOutlineTex, (c.screen s).maskTex with
    | some settings, some darkOutlineTex, some lightOutlineTex, some maskTex =>
      let rs1 := pushShader Shader.corners rs
      let rs2 := setUniform "frame_size"
        (UniformValue.vec2 geo_scaled.width geo_scaled.height) rs1
      let rs3 := setUniform "expanded_size"
        (UniformValue.vec2 exp_geo_scaled.width exp_geo_scaled.height) rs2
      let rs4 := setUniform "csd_shadow_offset"
        (UniformValue.vec3 (geo_scaled.x - exp_geo_scaled.x) (geo_scaled.y - exp_geo_scaled.y)
          (exp_geo_scaled.height - geo_scaled.height - geo_scaled.y + exp_geo_scaled.y)) rs3
      let rs5 := setUniform "radius" (UniformValue.real (c.screen s).sizeScaled) rs4
      let rs6 := setUniform "shadow_sample_offset" (UniformValue.real c.m_shadowOffset) rs5
      let rs7 := setUniform "content_size"
        (UniformValue.vec2 contents_geo_scaled.width contents_geo_scaled.height) rs6
      let rs8 := setUniform "is_wayland" (UniformValue.flag wayland) rs7
      let rs9 := setUniform "has_decoration"
        (UniformValue.flag (st.window w.id).hasDecoration) rs8
      let rs10 := setUniform "shadow_tex_size"
        (UniformValue.vec2 (st.window w.id).shadowTexSize.1 (st.window w.id).shadowTexSize.2)
        rs9
      let rs11 := setUniform "outline_strength"
        (UniformValue.real ((settings.outlineStrength : ℚ) / 100)) rs10
      let rs12 := setUniform "draw_outline" (UniformValue.flag settings.drawOutline) rs11
      let rs13 := setUniform "dark_theme" (UniformValue.flag settings.darkThemeOutline) rs12
      let rs14 := setUniform "scale" (UniformValue.real (c.screen s).scale) rs13
      let rs15 := bindTexture darkOutlineTex (glActiveTexture 3 rs14)
      let rs16 := bindTexture lightOutlineTex (glActiveTexture 2 rs15)
      let rs17 := bindTexture maskTex (glActiveTexture 1 rs16)
      let rs18 := glActiveTexture 0 rs17
      let rs19 := offscreenDrawWindow w rs18
      let rs20 := unbindTexture rs19
      let rs21 := unbindTexture rs20
      let rs22 := unbindTexture rs21
      some (popShader rs22)
    | _, _, _, _ => none

/-- A render state with no shader pushed, unit 0 active and no texture
bound. -/
def cleanRenderState : RenderState :=
  { shaderStack := [], activeTexture := 0, boundTexture := fun _ => none, uniforms := [],
    drawCalls := [] }

/-- The states of the screen cache that the effect reaches when the host's
list of screens may differ from one call to the next, each with the keys of
the entries built for the configuration in force: the keys of the screens
the latest `reconfigure` enumerated (the constructor ends in one), and the
keys of the screens `paintScreen` has rebuilt since. -/
inductive ReachableWith (pf : Platform) (wayland : Bool) :
    List (Option Nat) → ScreenCache → Prop where
  | construct (screens : List Nat) (settings : InternalSettings) (size0 : Int) :
      ReachableWith pf wayland (cachedKeys wayland screens)
        (construct pf wayland screens settings size0)
  | reconfigure (screens : List Nat) (settings : InternalSettings)
      (keys : List (Option Nat)) (c : ScreenCache) :
      ReachableWith pf wayland keys c →
      ReachableWith pf wayland (cachedKeys wayland screens)
        (reconfigure pf wayland screens settings c)
  | paintScreen (screen : Nat) (scale : ℚ) (keys : List (Option Nat)) (c : ScreenCache) :
      ReachableWith pf wayland keys c →
      ReachableWith pf wayland
        (if paintScreenSetRoundness wayland screen scale c = true then
          screenKey wayland screen :: keys
        else keys)
        (paintScreen pf wayland screen scale c)

/-- The entries under the given keys are the ones a rebuild produces from
the configuration in force: the shadow offset is the clamped one, the
logical radius is the configured one when there is such a key, and each of
these entries is the rebuilt entry for its scale factor. -/
def EntriesCurrent (pf : Platform) (keys : List (Option Nat)) (c : ScreenCache) : Prop :=
  c.m_shadowOffset = clampedShadowOffset c.m_settings.cornerRadius ∧
    (keys ≠ [] → c.m_size = c.m_settings.cornerRadius) ∧
    ∀ j, j ∈ keys → ∃ e, c.m_screens j = some e ∧
      e = builtEntry pf c.m_settings c.m_shadowOffset c.m_settings.cornerRadius e.scale

/-- The cache of a Wayland host constructed with screens 0 and 1 and radius
10 configured, painted on screen 1 at scale 2, and then reconfigured with
radius 5 when the host lists screen 0 only. -/
def staleEntryCache : ScreenCache :=
  reconfigure samplePlatform true [0] (settingsWithRadius 5)
    (paintScreen samplePlatform true 1 2
      (construct samplePlatform true [0, 1] (settingsWithRadius 10) 0))

/-- The cache of a Wayland host constructed with screen 0 and radius 8
configured, then painted on screen 1 at the scale a new entry starts with. -/
def unbuiltEntryCache : ScreenCache :=
  paintScreen samplePlatform true 1 ScreenState.fresh.scale
    (construct samplePlatform true [0] (settingsWithRadius 8) 0)

/-! ## Properties -/

@[simp] theorem window_setWindow_same (st : WindowStore) (k : Nat) (ws : WindowState) :
    (st.setWindow k ws).window k = ws := by
  simp [WindowStore.window, WindowStore.setWindow]

theorem window_setWindow_other (st : WindowStore) (k j : Nat) (ws : WindowState) (h : j ≠ k) :
    (st.setWindow k ws).window j = st.window j := by
  simp [WindowStore.window, WindowStore.setWindow, h]

@[simp] theorem window_setupDecorationConnections (w : EffectWindow) (st : WindowStore)
    (k : Nat) : (setupDecorationConnections w st).window k = st.window k := by
  unfold setupDecorationConnections
  cases w.decoration <;> rfl

theorem hasShadow_eq_false_iff (w : EffectWindow) :
    hasShadow w = false ↔
      w.expandedGeometry.width = w.frameGeometry.width ∧
        w.expandedGeometry.height = w.frameGeometry.height := by
  simp [hasShadow, QRectF.sizeNe]

theorem shellExcluded_iff (w : EffectWindow) :
    shellExcluded w ↔
      (!w.hasDecoration && (containsCI w.windowClass "plasma"
      || containsCI w.windowClass "krunner"
      || containsCI w.windowClass "latte-dock"
      || containsCI w.windowClass "lattedock"
      || containsCI w.windowClass "plank"
      || containsCI w.windowClass "cairo-dock"
      || containsCI w.windowClass "albert"
      || containsCI w.windowClass "ulauncher"
      || containsCI w.windowClass "ksplash"
      || containsCI w.windowClass "ksmserver"
      || (containsCI w.windowClass "reaper" && !hasShadow w))) = true := by
  simp only [shellExcluded, shellClasses, List.mem_cons, List.mem_singleton, exists_eq_or_imp,
    exists_eq_left, Bool.and_eq_true, Bool.or_eq_true, Bool.not_eq_true', List.not_mem_nil,
    false_and, exists_false, or_false, ← hasShadow_eq_false_iff, or_assoc]

theorem kindExcluded_iff (w : EffectWindow) :
    kindExcluded w ↔
      (w.isDesktop || w.isFullScreen || w.isPopupMenu || w.isTooltip || w.isSpecialWindow
        || w.isDropdownMenu || w.isPopupWindow || w.isLockScreen || w.isSplash) = true := by
  simp only [kindExcluded, Bool.or_eq_true, or_assoc]

theorem roleExcluded_iff (w : EffectWindow) :
    roleExcluded w ↔
      (w.windowType = WindowType.OnScreenDisplay
      ∨ w.windowType = WindowType.Dock
      ∨ w.windowType = WindowType.Menu
      ∨ w.windowType = WindowType.DropdownMenu
      ∨ w.windowType = WindowType.Tooltip
      ∨ w.windowType = WindowType.ComboBox
      ∨ w.windowType = WindowType.Splash) := by
  simp [roleExcluded, unmanagedRoles]

theorem ideSubWindow_iff (w : EffectWindow) :
    ideSubWindow w ↔
      (containsCI w.windowClass "jetbrains" && containsWinDigits w.caption) = true := by
  simp [ideSubWindow]

theorem shellNonWindow_iff (w : EffectWindow) :
    shellNonWindow w ↔
      (containsCI w.windowClass "plasma" && !w.isNormalWindow && !w.isDialog
        && !w.isModal) = true := by
  simp [shellNonWindow, and_assoc]

/-- The entry that `windowAdded` leaves for a window that no short-circuit
condition catches. -/
theorem windowAdded_entry_managed (fx : Effects) (w : EffectWindow) (st : WindowStore)
    (h : ¬ (roleExcluded w ∨ shellExcluded w ∨ ideSubWindow w ∨ shellNonWindow w ∨
      kindExcluded w)) :
    (windowAdded fx w st).window w.id =
      { st.window w.id with
        isManaged := true
        skipEffect := decide (fx.clientAreaMaximize w = w.frameGeometry) &&
          (fx.internalSettings w.windowClass w.caption).disableCornersShaderForMaximized
        settings := some (fx.internalSettings w.windowClass w.caption) } := by
  rw [roleExcluded_iff, shellExcluded_iff, ideSubWindow_iff, shellNonWindow_iff,
    kindExcluded_iff] at h
  push_neg at h
  obtain ⟨h1, h2, h3, h4, h5⟩ := h
  unfold windowAdded
  simp only []
  rw [if_neg (by push_neg; exact h1), if_neg h2, if_neg h3, if_neg h4, if_neg h5]
  by_cases hm : fx.clientAreaMaximize w = w.frameGeometry ∧
      (fx.internalSettings w.windowClass w.caption).disableCornersShaderForMaximized = true
  · rw [if_pos hm]
    simp [WindowStore.window, WindowStore.setWindow, setupDecorationConnections, hm.1, hm.2]
    cases w.decoration <;> simp
  · rw [if_neg hm]
    have : (decide (fx.clientAreaMaximize w = w.frameGeometry) &&
      (fx.internalSettings w.windowClass w.caption).disableCornersShaderForMaximized) = false := by
      simpa [Bool.and_eq_false_iff] using hm
    rw [this]
    simp [WindowStore.window, WindowStore.setWindow, setupDecorationConnections]
    cases w.decoration <;> simp

/-- The entry that `windowAdded` leaves for a window that a short-circuit
condition catches: only `isManaged` is reset. -/
theorem windowAdded_entry_unmanaged (fx : Effects) (w : EffectWindow) (st : WindowStore)
    (h : roleExcluded w ∨ shellExcluded w ∨ ideSubWindow w ∨ shellNonWindow w ∨
      kindExcluded w) :
    (windowAdded fx w st).window w.id = { st.window w.id with isManaged := false } := by
  rw [roleExcluded_iff, shellExcluded_iff, ideSubWindow_iff, shellNonWindow_iff,
    kindExcluded_iff] at h
  unfold windowAdded
  simp only []
  split_ifs <;> first | (exfalso; tauto) | simp
theorem sampleWindow_not_excluded :
    ¬ (roleExcluded sampleWindow ∨ shellExcluded sampleWindow ∨ ideSubWindow sampleWindow ∨
      shellNonWindow sampleWindow ∨ kindExcluded sampleWindow) := by
  rw [roleExcluded_iff, shellExcluded_iff, ideSubWindow_iff, shellNonWindow_iff,
    kindExcluded_iff]
  decide

theorem plasma_something_contains (c : String) (h : c = "plasma-something") :
    containsCI c "plasma" = true := by
  subst h
  decide

/-- C1: after `windowAdded(w)` the entry of `w` is managed exactly when none
of the short-circuit conditions (a) to (e) holds; a managed entry holds the
settings resolved for the class and caption of `w`, and its `skipEffect` is
true exactly when the frame geometry equals the maximize area and those
settings disable the effect for maximized windows. In particular an
undecorated window of class `plasma-something` is left unmanaged, and the
decorated, not maximized window of class `normal-app` is managed with
`skipEffect` false. -/
theorem windowAdded_classification (fx : Effects) (w : EffectWindow) (st : WindowStore) :
    (((windowAdded fx w st).window w.id).isManaged = true ↔
        ¬ (roleExcluded w ∨ shellExcluded w ∨ ideSubWindow w ∨ shellNonWindow w ∨
          kindExcluded w)) ∧
      (((windowAdded fx w st).window w.id).isManaged = true →
        ((windowAdded fx w st).window w.id).settings =
            some (fx.internalSettings w.windowClass w.caption) ∧
          (((windowAdded fx w st).window w.id).skipEffect = true ↔
            w.frameGeometry = fx.clientAreaMaximize w ∧
              (fx.internalSettings w.windowClass w.caption).disableCornersShaderForMaximized
                = true)) ∧
      (w.hasDecoration = false → w.windowClass = "plasma-something" →
        ((windowAdded fx w st).window w.id).isManaged = false) ∧
      ((windowAdded sampleEffects sampleWindow emptyStore).window sampleWindow.id).isManaged
        = true ∧
      ((windowAdded sampleEffects sampleWindow emptyStore).window sampleWindow.id).skipEffect
        = false := by
  have key : ((windowAdded fx w st).window w.id).isManaged = true ↔
      ¬ (roleExcluded w ∨ shellExcluded w ∨ ideSubWindow w ∨ shellNonWindow w ∨
        kindExcluded w) := by
    by_cases h : roleExcluded w ∨ shellExcluded w ∨ ideSubWindow w ∨ shellNonWindow w ∨
        kindExcluded w
    · rw [windowAdded_entry_unmanaged fx w st h]
      simp [h]
    · rw [windowAdded_entry_managed fx w st h]
      simp [h]
  refine ⟨key, ?_, ?_, ?_, ?_⟩
  · intro hm
    have h := key.mp hm
    rw [windowAdded_entry_managed fx w st h]
    refine ⟨rfl, ?_⟩
    simp only [Bool.and_eq_true, decide_eq_true_eq]
    constructor
    · rintro ⟨h1, h2⟩
      exact ⟨h1.symm, h2⟩
    · rintro ⟨h1, h2⟩
      exact ⟨h1.symm, h2⟩
  · intro hd hc
    have hex : shellExcluded w :=
      ⟨hd, Or.inl ⟨"plasma", by simp [shellClasses], plasma_something_contains _ hc⟩⟩
    rw [windowAdded_entry_unmanaged fx w st (Or.inr (Or.inl hex))]
  · rw [windowAdded_entry_managed _ _ _ sampleWindow_not_excluded]
  · rw [windowAdded_entry_managed _ _ _ sampleWindow_not_excluded]
    simp [sampleEffects, sampleSettings]

theorem maximize_keeps_others (w : EffectWindow) (h v : Bool) (st st1 : WindowStore)
    (hr : windowMaximizedStateChanged w h v st = some st1) (k : Nat) (hk : k ≠ w.id) :
    st1.m_windows k = st.m_windows k := by
  unfold windowMaximizedStateChanged at hr
  cases hs : (st.window w.id).settings with
  | none => simp [hs] at hr
  | some s =>
    simp only [hs] at hr
    split_ifs at hr <;> cases hr <;> simp [WindowStore.setWindow, hk]

theorem maximize_disabled_off (w : EffectWindow) (h v : Bool) (st : WindowStore)
    (s : InternalSettings) (hs : (st.window w.id).settings = some s)
    (hd : s.disableCornersShaderForMaximized = false) :
    windowMaximizedStateChanged w h v st = some st := by
  simp [windowMaximizedStateChanged, hs, hd]

theorem maximize_disabled_on (w : EffectWindow) (h v : Bool) (st : WindowStore)
    (s : InternalSettings) (hs : (st.window w.id).settings = some s)
    (hd : s.disableCornersShaderForMaximized = true) :
    windowMaximizedStateChanged w h v st =
      some (st.setWindow w.id { st.window w.id with skipEffect := h && v }) := by
  unfold windowMaximizedStateChanged
  simp only [hs, hd]
  cases h <;> cases v <;> simp

theorem maximizeEvents_disabled_off (w : EffectWindow) (st : WindowStore)
    (s : InternalSettings) (hs : (st.window w.id).settings = some s)
    (hd : s.disableCornersShaderForMaximized = false) (events : List (Bool × Bool)) :
    maximizeEvents w events st = some st := by
  induction events with
  | nil => rfl
  | cons e rest ih =>
    obtain ⟨h, v⟩ := e
    simp [maximizeEvents, maximize_disabled_off w h v st s hs hd, ih]

/-- C2: for a managed window whose resolved settings are `s`, the handler
`windowMaximizedStateChanged(w, horizontal, vertical)` returns; when
`s` does not disable the effect for maximized windows the state is left as
it was, after one event and after any sequence of events; when `s` does,
`skipEffect` becomes `horizontal && vertical`, so a maximize in both
directions sets it and a following event that is not maximized in both
directions clears it. In both cases `isManaged`, the settings of the window
and the entries of all other windows are as before. -/
theorem windowMaximizedStateChanged_spec (w : EffectWindow) (st : WindowStore)
    (s : InternalSettings) (hm : (st.window w.id).isManaged = true)
    (hs : (st.window w.id).settings = some s) (horizontal vertical : Bool) :
    ∃ st1, windowMaximizedStateChanged w horizontal vertical st = some st1 ∧
      (s.disableCornersShaderForMaximized = false →
        st1 = st ∧ ∀ events, maximizeEvents w events st = some st) ∧
      (s.disableCornersShaderForMaximized = true →
        (st1.window w.id).skipEffect = (horizontal && vertical) ∧
        ∀ h2 v2, ∃ st2 st3,
          windowMaximizedStateChanged w true true st = some st2 ∧
          (st2.window w.id).skipEffect = true ∧
          windowMaximizedStateChanged w h2 v2 st2 = some st3 ∧
          (st3.window w.id).skipEffect = (h2 && v2)) ∧
      (st1.window w.id).isManaged = true ∧
      (st1.window w.id).settings = some s ∧
      ∀ k, k ≠ w.id → st1.m_windows k = st.m_windows k := by
  cases hd : s.disableCornersShaderForMaximized with
  | false =>
    refine ⟨st, maximize_disabled_off w _ _ st s hs hd, ?_, ?_, hm, hs, fun _ _ => rfl⟩
    · intro _
      exact ⟨rfl, maximizeEvents_disabled_off w st s hs hd⟩
    · intro hc
      cases hc
  | true =>
    refine ⟨_, maximize_disabled_on w _ _ st s hs hd, ?_, ?_, ?_, ?_, ?_⟩
    · intro hc
      cases hc
    · intro _
      refine ⟨by simp, ?_⟩
      intro h2 v2
      have e1 := maximize_disabled_on w true true st s hs hd
      have e2 := maximize_disabled_on w h2 v2
        (st.setWindow w.id { st.window w.id with skipEffect := true && true }) s
        (by simpa using hs) hd
      exact ⟨_, _, e1, by simp, e2, by simp⟩
    · simpa using hm
    · simpa using hs
    · intro k hk
      simp [WindowStore.setWindow, hk]

/-- The managed sample window with the disabling settings: a maximize event in
both directions returns and sets `skipEffect`. -/
theorem windowMaximizedStateChanged_spec_witness :
    ((managedStore maximizedOffSettings).window sampleWindow.id).isManaged = true ∧
      ∃ st1, windowMaximizedStateChanged sampleWindow true true
          (managedStore maximizedOffSettings) = some st1 ∧
        (st1.window sampleWindow.id).skipEffect = true := by
  refine ⟨by decide, ?_⟩
  obtain ⟨st1, h1, _, h3, _⟩ :=
    windowMaximizedStateChanged_spec sampleWindow (managedStore maximizedOffSettings)
      maximizedOffSettings (by decide) (by decide) true true
  exact ⟨st1, h1, (h3 (by decide)).1⟩
theorem invalidBeforeBorders_iff (fx : Effects) (st : WindowStore) (w : EffectWindow)
    (mask : Nat) :
    invalidBeforeBorders fx st w mask ↔
      (!st.shaderValid
      || !(st.window w.id).isManaged
      || w.isFullScreen
      || w.isDesktop
      || w.isSpecialWindow
      || (st.window w.id).skipEffect
      || (!fx.renderTargetRect.intersects w.frameGeometry
          && !(decide (mask &&& PAINT_WINDOW_TRANSFORMED ≠ 0)))) = true := by
  simp only [invalidBeforeBorders, Bool.or_eq_true, Bool.and_eq_true, Bool.not_eq_true',
    decide_eq_false_iff_not, ne_eq, not_not, or_assoc]
  constructor <;> intro h <;> tauto

theorem bordersPositive_iff_nonzero (w : EffectWindow) (h : bordersNonNegative w) :
    bordersPositive w ↔ bordersNonzero w := by
  constructor
  · rintro ⟨d, hd, hp⟩
    refine ⟨d, hd, ?_⟩
    rcases hp with hp | hp | hp
    · exact Or.inl (ne_of_gt hp)
    · exact Or.inr (Or.inl (ne_of_gt hp))
    · exact Or.inr (Or.inr (ne_of_gt hp))
  · rintro ⟨d, hd, hp⟩
    obtain ⟨hl, hr, hb⟩ := h d hd
    refine ⟨d, hd, ?_⟩
    rcases hp with hp | hp | hp
    · exact Or.inl (lt_of_le_of_ne hl (Ne.symm hp))
    · exact Or.inr (Or.inl (lt_of_le_of_ne hr (Ne.symm hp)))
    · exact Or.inr (Or.inr (lt_of_le_of_ne hb (Ne.symm hp)))

/-- C3: `isValidWindow(w, mask)` returns false exactly when the shader is
invalid, or `w` is not managed, full-screen, a desktop window or a special
window, or `skipEffect` is set, or the mask lacks the transformed flag and
the frame geometry does not intersect the render-target rect, or `w` has a
decoration that reports a positive left, right or bottom border; it returns
true when none of these holds. The borders being widths (none of them
negative), a positive border is a nonzero one, and the same holds with
"nonzero" for "positive". -/
theorem isValidWindow_false_iff (fx : Effects) (st : WindowStore) (w : EffectWindow)
    (mask : Nat) :
    (isValidWindow fx st w mask = false ↔
        invalidBeforeBorders fx st w mask ∨ bordersPositive w) ∧
      (¬ (invalidBeforeBorders fx st w mask ∨ bordersPositive w) →
        isValidWindow fx st w mask = true) ∧
      (bordersNonNegative w →
        (isValidWindow fx st w mask = false ↔
          invalidBeforeBorders fx st w mask ∨ bordersNonzero w) ∧
        (¬ (invalidBeforeBorders fx st w mask ∨ bordersNonzero w) →
          isValidWindow fx st w mask = true)) := by
  have key : isValidWindow fx st w mask = false ↔
      invalidBeforeBorders fx st w mask ∨ bordersPositive w := by
    rw [invalidBeforeBorders_iff]
    unfold isValidWindow bordersPositive
    simp only []
    generalize (!st.shaderValid
      || !(st.window w.id).isManaged
      || w.isFullScreen
      || w.isDesktop
      || w.isSpecialWindow
      || (st.window w.id).skipEffect
      || (!fx.renderTargetRect.intersects w.frameGeometry
          && !(decide (mask &&& PAINT_WINDOW_TRANSFORMED ≠ 0)))) = c
    cases c with
    | true => simp
    | false =>
      cases hd : w.decoration with
      | none => simp
      | some d =>
        simp only [Bool.false_eq_true, if_false, false_or, Option.some.injEq,
          exists_eq_left', gt_iff_lt]
        split_ifs with h2
        · simp only [true_iff]
          tauto
        · simp only [Bool.true_eq_false, false_iff]
          tauto
  have total : ∀ p : Prop, (isValidWindow fx st w mask = false ↔ p) →
      ¬ p → isValidWindow fx st w mask = true := by
    intro p hp h
    cases hv : isValidWindow fx st w mask with
    | true => rfl
    | false => exact absurd (hp.mp hv) h
  refine ⟨key, total _ key, fun hn => ?_⟩
  have key2 : isValidWindow fx st w mask = false ↔
      invalidBeforeBorders fx st w mask ∨ bordersNonzero w := by
    rw [key, bordersPositive_iff_nonzero w hn]
  exact ⟨key2, total _ key2⟩

/-! ### Screen cache -/

@[simp] theorem screen_setScreen_same (c : ScreenCache) (k : Option Nat) (e : ScreenState) :
    (c.setScreen k e).screen k = e := by
  simp [ScreenCache.screen, ScreenCache.setScreen]

theorem screen_setScreen_other (c : ScreenCache) (k j : Option Nat) (e : ScreenState)
    (h : j ≠ k) : (c.setScreen k e).screen j = c.screen j := by
  simp [ScreenCache.screen, ScreenCache.setScreen, h]

theorem setScreen_setScreen (c : ScreenCache) (k : Option Nat) (e1 e2 : ScreenState) :
    (c.setScreen k e1).setScreen k e2 = c.setScreen k e2 := by
  simp only [ScreenCache.setScreen, ScreenCache.mk.injEq, and_self, and_true]
  funext j
  by_cases h : j = k <;> simp [h]

/-- What `setRoundness` leaves: the logical radius, and a rebuilt entry for
the screen; nothing else changes. -/
theorem setRoundness_eq (pf : Platform) (r : Int) (s : Option Nat) (c : ScreenCache) :
    setRoundness pf r s c =
      { c with
        m_size := r
        m_screens := fun j =>
          if j = s then
            some (builtEntry pf c.m_settings c.m_shadowOffset r (c.screen s).scale)
          else c.m_screens j } := by
  simp only [setRoundness, genRect, genMasks, setScreen_setScreen, screen_setScreen_same]
  simp [ScreenCache.setScreen, ScreenCache.screen, builtEntry]

theorem setRoundness_screen (pf : Platform) (r : Int) (s : Option Nat)
    (c : ScreenCache) :
    (setRoundness pf r s c).screen s =
      builtEntry pf c.m_settings c.m_shadowOffset r (c.screen s).scale := by
  rw [setRoundness_eq]
  simp [ScreenCache.screen]
theorem setRoundness_scale (pf : Platform) (r : Int) (s j : Option Nat)
    (c : ScreenCache) :
    ((setRoundness pf r s c).screen j).scale = (c.screen j).scale := by
  rw [setRoundness_eq]
  by_cases h : j = s
  · subst h
    simp [ScreenCache.screen, builtEntry]
  · simp [ScreenCache.screen, h]

theorem foldl_setRoundness (pf : Platform) (r : Int) (screens : List Nat) :
    ∀ c : ScreenCache,
      (screens.foldl (fun acc s => setRoundness pf r (some s) acc) c).m_shadowOffset
          = c.m_shadowOffset ∧
      (screens.foldl (fun acc s => setRoundness pf r (some s) acc) c).m_settings
          = c.m_settings ∧
      (screens.foldl (fun acc s => setRoundness pf r (some s) acc) c).m_size
          = (if screens = [] then c.m_size else r) ∧
      ∀ j, (screens.foldl (fun acc s => setRoundness pf r (some s) acc) c).m_screens j =
        if j ∈ screens.map some then
          some (builtEntry pf c.m_settings c.m_shadowOffset r (c.screen j).scale)
        else c.m_screens j := by
  induction screens with
  | nil => intro c; simp
  | cons a rest ih =>
    intro c
    obtain ⟨h1, h2, h3, h4⟩ := ih (setRoundness pf r (some a) c)
    simp only [List.foldl_cons]
    refine ⟨?_, ?_, ?_, ?_⟩
    · rw [h1, setRoundness_eq]
    · rw [h2, setRoundness_eq]
    · rw [h3]
      by_cases hr : rest = []
      · simp [hr, setRoundness_eq]
      · simp [hr]
    · intro j
      rw [h4 j, setRoundness_scale]
      by_cases hj : j ∈ rest.map some
      · have : j ∈ (a :: rest).map some := by
          simp only [List.map_cons, List.mem_cons]
          exact Or.inr hj
        rw [if_pos hj, if_pos this]
        simp [setRoundness_eq]
      · rw [if_neg hj]
        by_cases ha : j = some a
        · have : j ∈ (a :: rest).map some := by
            simp only [List.map_cons, List.mem_cons]
            exact Or.inl ha
          rw [if_pos this]
          subst ha
          simp [setRoundness_eq]
        · have : j ∉ (a :: rest).map some := by
            simp only [List.map_cons, List.mem_cons, not_or]
            exact ⟨ha, hj⟩
          rw [if_neg this]
          simp [setRoundness_eq, ha]

/-- What the loop of `reconfigure` and of the rebuilds leaves: every cached
key of the host rebuilt for radius `r`, the other entries as they were. -/
theorem forEachScreen_setRoundness (pf : Platform) (r : Int) (wayland : Bool)
    (screens : List Nat) (c : ScreenCache) :
    (forEachScreen wayland screens (setRoundness pf r) c).m_shadowOffset
        = c.m_shadowOffset ∧
    (forEachScreen wayland screens (setRoundness pf r) c).m_settings = c.m_settings ∧
    (forEachScreen wayland screens (setRoundness pf r) c).m_size
        = (if screens = [] then c.m_size else r) ∧
    ∀ j, (forEachScreen wayland screens (setRoundness pf r) c).m_screens j =
      if j ∈ cachedKeys wayland screens then
        some (builtEntry pf c.m_settings c.m_shadowOffset r (c.screen j).scale)
      else c.m_screens j := by
  cases wayland with
  | true =>
    simpa [forEachScreen, cachedKeys] using foldl_setRoundness pf r screens c
  | false =>
    cases screens with
    | nil => simp [forEachScreen, cachedKeys]
    | cons a rest =>
      simp only [forEachScreen, cachedKeys, Bool.false_eq_true, if_false, List.mem_singleton]
      rw [setRoundness_eq]
      refine ⟨rfl, rfl, by simp, fun j => ?_⟩
      by_cases hj : j = none
      · subst hj
        simp
      · simp [hj]

theorem screenKey_mem_cachedKeys (wayland : Bool) (screens : List Nat) (s : Nat)
    (h : s ∈ screens) : screenKey wayland s ∈ cachedKeys wayland screens := by
  cases wayland with
  | true => simpa [screenKey, cachedKeys] using h
  | false =>
    cases screens with
    | nil => simp at h
    | cons a rest => simp [screenKey, cachedKeys]

theorem reconfigure_shadowOffset (pf : Platform) (wayland : Bool) (screens : List Nat)
    (settings : InternalSettings) (c : ScreenCache) :
    (reconfigure pf wayland screens settings c).m_shadowOffset =
      clampedShadowOffset settings.cornerRadius := by
  unfold reconfigure
  exact (forEachScreen_setRoundness pf _ wayland screens _).1

theorem reconfigure_settings (pf : Platform) (wayland : Bool) (screens : List Nat)
    (settings : InternalSettings) (c : ScreenCache) :
    (reconfigure pf wayland screens settings c).m_settings = settings := by
  unfold reconfigure
  exact (forEachScreen_setRoundness pf _ wayland screens _).2.1

theorem reconfigure_size (pf : Platform) (wayland : Bool) (screens : List Nat)
    (settings : InternalSettings) (c : ScreenCache) :
    (reconfigure pf wayland screens settings c).m_size =
      (if screens = [] then c.m_size else settings.cornerRadius) := by
  unfold reconfigure
  exact (forEachScreen_setRoundness pf _ wayland screens _).2.2.1

theorem reconfigure_screens (pf : Platform) (wayland : Bool) (screens : List Nat)
    (settings : InternalSettings) (c : ScreenCache) (j : Option Nat) :
    (reconfigure pf wayland screens settings c).m_screens j =
      if j ∈ cachedKeys wayland screens then
        some (builtEntry pf settings (clampedShadowOffset settings.cornerRadius)
          settings.cornerRadius (c.screen j).scale)
      else c.m_screens j := by
  unfold reconfigure
  exact (forEachScreen_setRoundness pf _ wayland screens _).2.2.2 j

theorem clampedShadowOffset_eq (r : Int) :
    clampedShadowOffset r = if 2 < r then 2 else r - 1 := by
  unfold clampedShadowOffset
  simp only [ge_iff_le]
  split_ifs <;> omega

/-- C4: after `reconfigure` with configured corner radius `r` the effective
shadow offset is 2 when `r > 2` and `r - 1` when `r ≤ 2`; it is strictly
smaller than `r`, radius minus offset is at least 1, and for `r = 1` the
offset is exactly 0. -/
theorem reconfigure_shadowOffset_clamp (pf : Platform) (wayland : Bool)
    (screens : List Nat) (settings : InternalSettings) (c : ScreenCache) :
    ((reconfigure pf wayland screens settings c).m_shadowOffset =
        if 2 < settings.cornerRadius then 2 else settings.cornerRadius - 1) ∧
      (reconfigure pf wayland screens settings c).m_shadowOffset < settings.cornerRadius ∧
      1 ≤ settings.cornerRadius - (reconfigure pf wayland screens settings c).m_shadowOffset ∧
      (settings.cornerRadius = 1 →
        (reconfigure pf wayland screens settings c).m_shadowOffset = 0) := by
  rw [reconfigure_shadowOffset, clampedShadowOffset_eq]
  refine ⟨rfl, ?_, ?_, ?_⟩
  · split_ifs <;> omega
  · split_ifs <;> omega
  · intro h
    rw [h]
    rfl
theorem truncToInt_intCast (n : Int) : truncToInt (n : ℚ) = n := by
  unfold truncToInt
  split_ifs <;> simp

theorem truncToInt_of_nonneg (q : ℚ) (h : 0 ≤ q) : truncToInt q = ⌊q⌋ := by
  simp [truncToInt, h]

theorem truncToInt_add_int (q : ℚ) (n : Int) (hq : 0 ≤ q) (hn : 0 ≤ n) :
    truncToInt (q + n) = ⌊q⌋ + n := by
  have h : (0 : ℚ) ≤ q + n := add_nonneg hq (by exact_mod_cast hn)
  rw [truncToInt_of_nonneg _ h, Int.floor_add_int]

theorem roundProduct_intCast (pf : Platform) (n : Int) (h : |n| ≤ 16777216) :
    pf.arith.roundProduct (n : ℚ) = n := by
  have h0 := pf.arith.roundProduct_exact n 0 h (by omega)
  simpa using h0

theorem roundSum_intCast (pf : Platform) (n : Int) (h : |n| ≤ 16777216) :
    pf.arith.roundSum (n : ℚ) = n := by
  have h0 := pf.arith.roundSum_exact n 0 h (by omega)
  simpa using h0

theorem roundProduct_quarters (pf : Platform) (m : Int) (h : |m| ≤ 16777216) :
    pf.arith.roundProduct ((m : ℚ) / 4) = (m : ℚ) / 4 := by
  have h0 := pf.arith.roundProduct_exact m 2 h (by omega)
  norm_num at h0
  exact h0

theorem roundSum_quarters (pf : Platform) (m : Int) (h : |m| ≤ 16777216) :
    pf.arith.roundSum ((m : ℚ) / 4) = (m : ℚ) / 4 := by
  have h0 := pf.arith.roundSum_exact m 2 h (by omega)
  norm_num at h0
  exact h0

theorem one_le_roundProduct (pf : Platform) (x : ℚ) (h : 1 ≤ x) :
    1 ≤ pf.arith.roundProduct x := by
  have h1 := pf.arith.roundProduct_mono 1 x h
  have h2 := roundProduct_intCast pf 1 (by decide)
  simp only [Int.cast_one] at h2
  rw [h2] at h1
  exact h1

theorem one_le_roundSum (pf : Platform) (x : ℚ) (h : 1 ≤ x) :
    1 ≤ pf.arith.roundSum x := by
  have h1 := pf.arith.roundSum_mono 1 x h
  have h2 := roundSum_intCast pf 1 (by decide)
  simp only [Int.cast_one] at h2
  rw [h2] at h1
  exact h1

theorem paint_width (img : QImage) (op : PaintOp) : (img.paint op).width = img.width := by
  unfold QImage.paint
  split_ifs <;> rfl

theorem paint_height (img : QImage) (op : PaintOp) : (img.paint op).height = img.height := by
  unfold QImage.paint
  split_ifs <;> rfl

theorem create_width (w : Int) : (QImage.create w w).width = if 0 < w then w else 0 := by
  unfold QImage.create
  by_cases h : 0 < w
  · have h1 : ¬ (w ≤ 0 ∨ w ≤ 0) := by omega
    rw [if_neg h1, if_pos h]
  · have h1 : w ≤ 0 ∨ w ≤ 0 := by omega
    rw [if_pos h1, if_neg h]

theorem create_height (w : Int) : (QImage.create w w).height = if 0 < w then w else 0 := by
  unfold QImage.create
  by_cases h : 0 < w
  · have h1 : ¬ (w ≤ 0 ∨ w ≤ 0) := by omega
    rw [if_neg h1, if_pos h]
  · have h1 : w ≤ 0 ∨ w ≤ 0 := by omega
    rw [if_pos h1, if_neg h]

/-- The image `genMaskImg` returns is square, of side twice the size, and
null when the size is not positive. -/
theorem genMaskImg_side (settings : InternalSettings) (offset size : Int)
    (mask outer_rect : Bool) :
    (genMaskImg settings offset size mask outer_rect).width = imageSide size ∧
      (genMaskImg settings offset size mask outer_rect).height = imageSide size := by
  have hw : (QImage.create (size * 2) (size * 2)).width = imageSide size := by
    rw [create_width]
    unfold imageSide
    split_ifs <;> omega
  have hh : (QImage.create (size * 2) (size * 2)).height = imageSide size := by
    rw [create_height]
    unfold imageSide
    split_ifs <;> omega
  unfold genMaskImg
  simp only []
  split_ifs <;> simp only [paint_width, paint_height, hw, hh, and_self]

theorem paintScreen_same (pf : Platform) (wayland : Bool) (screen : Nat) (scale : ℚ)
    (c : ScreenCache) (h : scale = (c.screen (screenKey wayland screen)).scale) :
    paintScreen pf wayland screen scale c =
      c.setScreen (screenKey wayland screen) (c.screen (screenKey wayland screen)) := by
  simp [paintScreen, paintScreenSetRoundness, h]

theorem paintScreen_changed (pf : Platform) (wayland : Bool) (screen : Nat) (scale : ℚ)
    (c : ScreenCache) (h : scale ≠ (c.screen (screenKey wayland screen)).scale) :
    paintScreen pf wayland screen scale c =
      { c with
        m_size := c.m_settings.cornerRadius
        m_screens := fun j =>
          if j = screenKey wayland screen then
            some (builtEntry pf c.m_settings c.m_shadowOffset c.m_settings.cornerRadius
              scale)
          else c.m_screens j } := by
  simp only [paintScreen, paintScreenSetRoundness, screen_setScreen_same, ne_eq, h,
    not_false_eq_true, decide_True, if_true, setScreen_setScreen, setRoundness_eq]
  simp only [ScreenCache.setScreen, ScreenCache.mk.injEq, and_true, true_and]
  funext j
  by_cases hj : j = screenKey wayland screen <;> simp [hj]

theorem setScreen_screen_of_some (c : ScreenCache) (k : Option Nat) (e : ScreenState)
    (h : c.m_screens k = some e) : c.setScreen k (c.screen k) = c := by
  cases c with
  | mk m a b d =>
    simp only [ScreenCache.setScreen, ScreenCache.screen, ScreenCache.mk.injEq, and_true]
    funext j
    by_cases hj : j = k
    · subst hj
      simp only [if_true]
      simp only at h
      rw [h]
      rfl
    · simp [hj]

theorem initScreen_scale (s j : Option Nat) (c : ScreenCache) :
    ((initScreen s c).screen j).scale = (c.screen j).scale := by
  unfold initScreen
  by_cases h : j = s
  · subst h
    simp
  · rw [screen_setScreen_other _ _ _ _ h]

theorem initScreen_other (s j : Option Nat) (c : ScreenCache) (h : j ≠ s) :
    (initScreen s c).m_screens j = c.m_screens j := by
  simp [initScreen, ScreenCache.setScreen, h]

theorem forEachScreen_initScreen (wayland : Bool) (screens : List Nat) (c : ScreenCache) :
    (∀ j, ((forEachScreen wayland screens initScreen c).screen j).scale = (c.screen j).scale) ∧
      ∀ j, j ∉ cachedKeys wayland screens →
        (forEachScreen wayland screens initScreen c).m_screens j = c.m_screens j := by
  cases wayland with
  | true =>
    simp only [forEachScreen, cachedKeys, if_true]
    induction screens generalizing c with
    | nil => simp
    | cons a rest ih =>
      obtain ⟨h1, h2⟩ := ih (initScreen (some a) c)
      simp only [List.foldl_cons]
      refine ⟨fun j => by rw [h1, initScreen_scale], fun j hj => ?_⟩
      simp only [List.map_cons, List.mem_cons, not_or] at hj
      rw [h2 j hj.2, initScreen_other _ _ _ hj.1]
  | false =>
    cases screens with
    | nil => simp [forEachScreen]
    | cons a rest =>
      simp only [forEachScreen, cachedKeys, Bool.false_eq_true, if_false, List.mem_singleton]
      exact ⟨fun j => initScreen_scale none j c, fun j hj => initScreen_other _ _ _ hj⟩

theorem construct_eq (pf : Platform) (wayland : Bool) (screens : List Nat)
    (settings : InternalSettings) (size0 : Int) :
    ∃ c1 : ScreenCache,
      construct pf wayland screens settings size0 =
        reconfigure pf wayland screens settings c1 ∧
      (∀ j, (c1.screen j).scale = 1) ∧
      (∀ j, j ∉ cachedKeys wayland screens → c1.m_screens j = none) := by
  refine ⟨_, rfl, ?_, ?_⟩
  · intro j
    rw [(forEachScreen_initScreen wayland screens _).1 j]
    rfl
  · intro j hj
    rw [(forEachScreen_initScreen wayland screens _).2 j hj]

theorem reconfigure_screen_of_mem (pf : Platform) (wayland : Bool) (screens : List Nat)
    (settings : InternalSettings) (c : ScreenCache) (j : Option Nat)
    (hj : j ∈ cachedKeys wayland screens) :
    (reconfigure pf wayland screens settings c).screen j =
      builtEntry pf settings (clampedShadowOffset settings.cornerRadius)
        settings.cornerRadius (c.screen j).scale := by
  have h := reconfigure_screens pf wayland screens settings c j
  rw [if_pos hj] at h
  show ((reconfigure pf wayland screens settings c).m_screens j).getD _ = _
  rw [h]
  rfl

/-- C5 (as stated, refuted): with corner radius 0 configured, which is in the
stated range, and scale factor 1, the constructor's reconfiguration leaves
the shadow offset -1 and passes the size -1 to the rasteriser. -/
theorem reconfigure_radius_zero :
    0 ≤ zeroRadiusCache.m_settings.cornerRadius ∧
      1 ≤ (zeroRadiusCache.screen none).scale ∧
      zeroRadiusCache.m_shadowOffset = -1 ∧
      atlasSize samplePlatform zeroRadiusCache none = -1 := by
  obtain ⟨c1, h1, h2, _⟩ := construct_eq samplePlatform false [0] (settingsWithRadius 0) 0
  have hoff : zeroRadiusCache.m_shadowOffset = -1 := by
    unfold zeroRadiusCache
    rw [h1, reconfigure_shadowOffset]
    decide
  have hscr : zeroRadiusCache.screen none =
      builtEntry samplePlatform (settingsWithRadius 0) (-1) 0 1 := by
    unfold zeroRadiusCache
    rw [h1, reconfigure_screen_of_mem _ _ _ _ _ _ (by simp [cachedKeys]), h2]
    rfl
  refine ⟨?_, ?_, hoff, ?_⟩
  · unfold zeroRadiusCache
    rw [h1, reconfigure_settings]
    decide
  · rw [hscr]
    simp [builtEntry]
  · unfold atlasSize
    rw [hscr, hoff]
    simp only [builtEntry]
    have e1 : ((0 : Int) : ℚ) * 1 = ((0 : Int) : ℚ) := by norm_num
    have e2 : ((0 : Int) : ℚ) + ((-1 : Int) : ℚ) = ((-1 : Int) : ℚ) := by norm_num
    rw [e1, roundProduct_intCast _ _ (by decide), e2, roundSum_intCast _ _ (by decide),
      truncToInt_intCast]

/-- C5 (amended): for every configured corner radius `r ≥ 1` and every
screen of the host whose cached scale factor is at least 1, after
`reconfigure` the effective shadow offset is not negative and the size passed
to the rasteriser for the mask atlas of that screen is at least 1. -/
theorem reconfigure_offset_nonneg_size_pos (pf : Platform) (wayland : Bool)
    (screens : List Nat) (settings : InternalSettings) (c : ScreenCache)
    (hr : 1 ≤ settings.cornerRadius) (s : Nat) (hs : s ∈ screens)
    (hf : 1 ≤ (c.screen (screenKey wayland s)).scale) :
    0 ≤ (reconfigure pf wayland screens settings c).m_shadowOffset ∧
      1 ≤ atlasSize pf (reconfigure pf wayland screens settings c) (screenKey wayland s) := by
  have hoff : 0 ≤ clampedShadowOffset settings.cornerRadius := by
    rw [clampedShadowOffset_eq]
    split_ifs <;> omega
  refine ⟨by rw [reconfigure_shadowOffset]; exact hoff, ?_⟩
  unfold atlasSize
  rw [reconfigure_screen_of_mem _ _ _ _ _ _ (screenKey_mem_cachedKeys wayland screens s hs),
    reconfigure_shadowOffset]
  simp only [builtEntry]
  have h1 : (1 : ℚ) ≤ settings.cornerRadius := by exact_mod_cast hr
  have h2 : (0 : ℚ) ≤ (clampedShadowOffset settings.cornerRadius : ℚ) := by exact_mod_cast hoff
  have h3 : (1 : ℚ) ≤ settings.cornerRadius * (c.screen (screenKey wayland s)).scale := by
    calc (1 : ℚ) = 1 * 1 := by norm_num
      _ ≤ settings.cornerRadius * (c.screen (screenKey wayland s)).scale :=
        mul_le_mul h1 hf (by norm_num) (by linarith)
  have h4 := one_le_roundProduct pf _ h3
  have h5 := one_le_roundSum pf
    (pf.arith.roundProduct (settings.cornerRadius * (c.screen (screenKey wayland s)).scale)
      + clampedShadowOffset settings.cornerRadius) (by linarith)
  rw [truncToInt_of_nonneg _ (by linarith), Int.le_floor]
  push_cast
  exact h5

/-- Radius 1 on a host with one screen at scale 1: offset not negative, size
at least 1. -/
theorem reconfigure_offset_nonneg_size_pos_witness :
    0 ≤ (reconfigure samplePlatform false [0] (settingsWithRadius 1) emptyCache).m_shadowOffset ∧
      1 ≤ atlasSize samplePlatform
        (reconfigure samplePlatform false [0] (settingsWithRadius 1) emptyCache)
        (screenKey false 0) :=
  reconfigure_offset_nonneg_size_pos samplePlatform false [0] (settingsWithRadius 1) emptyCache
    (by decide) 0 (by simp) (by simp [ScreenCache.screen, emptyCache, ScreenState.fresh])

theorem imageSide_eq_max (size : Int) : imageSide size = 2 * max 0 size := by
  unfold imageSide
  split_ifs with h
  · rw [max_eq_right (le_of_lt h)]
  · rw [max_eq_left (not_lt.mp h)]
    rfl

/-- The state the constructor leaves for a host without Wayland and with one
screen: offset and settings from the configured radius, one entry built at
scale 1. -/
theorem construct_single (pf : Platform) (settings : InternalSettings) (size0 : Int) :
    (construct pf false [0] settings size0).m_shadowOffset =
        clampedShadowOffset settings.cornerRadius ∧
      (construct pf false [0] settings size0).m_settings = settings ∧
      (construct pf false [0] settings size0).screen none =
        builtEntry pf settings (clampedShadowOffset settings.cornerRadius)
          settings.cornerRadius 1 := by
  obtain ⟨c1, h1, h2, _⟩ := construct_eq pf false [0] settings size0
  rw [h1]
  refine ⟨reconfigure_shadowOffset _ _ _ _ _, reconfigure_settings _ _ _ _ _, ?_⟩
  rw [reconfigure_screen_of_mem _ _ _ _ _ _ (by simp [cachedKeys]), h2]

theorem fractionalScaleCache_eq :
    fractionalScaleCache.m_shadowOffset = 2 ∧
      (fractionalScaleCache.screen none).scale = 5 / 4 := by
  obtain ⟨h1, h2, h3⟩ := construct_single samplePlatform (settingsWithRadius 3) 0
  have hne : (5 / 4 : ℚ) ≠
      ((construct samplePlatform false [0] (settingsWithRadius 3) 0).screen
        (screenKey false 0)).scale := by
    show (5 / 4 : ℚ) ≠ ((construct samplePlatform false [0] (settingsWithRadius 3) 0).screen
      none).scale
    rw [h3]
    simp only [builtEntry]
    norm_num
  unfold fractionalScaleCache
  rw [paintScreen_changed _ _ _ _ _ hne]
  refine ⟨?_, ?_⟩
  · show (construct samplePlatform false [0] (settingsWithRadius 3) 0).m_shadowOffset = 2
    rw [h1]
    decide
  · simp [ScreenCache.screen, screenKey, builtEntry]

theorem setRoundness_maskTex (pf : Platform) (r : Int) (s : Option Nat)
    (c : ScreenCache) :
    ((setRoundness pf r s c).screen s).maskTex =
      some (genMaskImg c.m_settings c.m_shadowOffset
        (truncToInt (pf.arith.roundSum
          (pf.arith.roundProduct (r * (c.screen s).scale) + c.m_shadowOffset))) true false) := by
  rw [setRoundness_screen]
  rfl

/-- On every platform the texture size for radius 3, scale 5/4 and shadow
offset 2 is 5: the product 15/4 and the sum 23/4 are representable, and the
conversion to `int` drops the fraction. -/
theorem truncated_size_fractional (pf : Platform) :
    truncToInt (pf.arith.roundSum
      (pf.arith.roundProduct (((3 : Int) : ℚ) * (5 / 4)) + ((2 : Int) : ℚ))) = 5 := by
  have e1 : ((3 : Int) : ℚ) * (5 / 4) = ((15 : Int) : ℚ) / 4 := by norm_num
  have e2 : ((15 : Int) : ℚ) / 4 + ((2 : Int) : ℚ) = ((23 : Int) : ℚ) / 4 := by norm_num
  rw [e1, roundProduct_quarters pf 15 (by decide), e2, roundSum_quarters pf 23 (by decide),
    truncToInt_of_nonneg _ (by norm_num), Int.floor_eq_iff]
  constructor <;> norm_num

/-- C6 (as stated, refuted): in the cache with radius 3, shadow offset 2 and
cached scale 5/4, `setRoundness(3, s)` generates a mask image of side 10,
while the stated formula `2 x (round(r x f) + shadowOffset)` gives 12. -/
theorem setRoundness_fractional_scale :
    ∃ img, ((setRoundness samplePlatform 3 none fractionalScaleCache).screen none).maskTex
        = some img ∧
      img.width = 10 ∧ img.height = 10 ∧
      2 * (round ((3 : ℚ) * (fractionalScaleCache.screen none).scale)
        + fractionalScaleCache.m_shadowOffset) = 12 := by
  obtain ⟨h1, h2⟩ := fractionalScaleCache_eq
  have ht := truncated_size_fractional samplePlatform
  have hr : round ((3 : ℚ) * (5 / 4)) = 4 := by
    rw [round_eq, Int.floor_eq_iff]
    constructor <;> norm_num
  refine ⟨_, setRoundness_maskTex _ _ _ _, ?_, ?_, ?_⟩
  · rw [(genMaskImg_side _ _ _ _ _).1, h1, h2, ht]
    rfl
  · rw [(genMaskImg_side _ _ _ _ _).2, h1, h2, ht]
    rfl
  · rw [h1, h2, hr]
    rfl

/-- C6 (amended): after `setRoundness(r, s)` on a screen whose cached scale
is `f`, the mask image generated for `maskTex` is square, and its side is
twice the `int` conversion of the floating-point value of
`r x f + shadowOffset` (product and sum as the platform rounds them; the
conversion drops the fraction, it does not round to nearest), or 0 when that
size is negative. When the product and the sum are computed without rounding
error and are not negative, the side is `2 x (floor(r x f) + shadowOffset)`. -/
theorem setRoundness_maskTex_side (pf : Platform) (r : Int) (s : Option Nat)
    (c : ScreenCache) :
    ∃ img, ((setRoundness pf r s c).screen s).maskTex = some img ∧
      img.width = img.height ∧
      img.width = 2 * max 0 (truncToInt (pf.arith.roundSum
        (pf.arith.roundProduct (r * (c.screen s).scale) + c.m_shadowOffset))) ∧
      (pf.arith.roundProduct (r * (c.screen s).scale) = r * (c.screen s).scale →
        pf.arith.roundSum (r * (c.screen s).scale + c.m_shadowOffset)
          = r * (c.screen s).scale + c.m_shadowOffset →
        0 ≤ (r : ℚ) * (c.screen s).scale → 0 ≤ c.m_shadowOffset →
        img.width = 2 * (⌊(r : ℚ) * (c.screen s).scale⌋ + c.m_shadowOffset)) := by
  refine ⟨_, setRoundness_maskTex _ _ _ _, ?_, ?_, ?_⟩
  · rw [(genMaskImg_side _ _ _ _ _).1, (genMaskImg_side _ _ _ _ _).2]
  · rw [(genMaskImg_side _ _ _ _ _).1, imageSide_eq_max]
  · intro hp hsum hq hn
    rw [(genMaskImg_side _ _ _ _ _).1, imageSide_eq_max, hp, hsum,
      truncToInt_add_int _ _ hq hn]
    have : 0 ≤ ⌊(r : ℚ) * (c.screen s).scale⌋ + c.m_shadowOffset :=
      add_nonneg (Int.floor_nonneg.mpr hq) hn
    rw [max_eq_right this]

/-- C7: `paintScreen` rebuilds the cache of a screen exactly when the
render-target scale `f` differs from the cached scale. When they are equal
the entry of the screen is left as it was (and so is the whole cache when the
entry exists). When they differ the cached scale becomes `f`, the scaled
radius becomes the configured radius times `f` (the product as the platform
computes it, which is the exact product whenever that is representable), the
entry is the one `setRoundness` builds, and a following `paintScreen` with
the same `f` rebuilds nothing and leaves the cache as it is. With radius 10
the scaled radius is 10 at scale 1 and 20 after the scale changes to 2. -/
theorem paintScreen_rebuild (pf : Platform) (wayland : Bool) (screen : Nat) (f : ℚ)
    (c : ScreenCache) :
    (paintScreenSetRoundness wayland screen f c = true ↔
        f ≠ (c.screen (screenKey wayland screen)).scale) ∧
      (f = (c.screen (screenKey wayland screen)).scale →
        (paintScreen pf wayland screen f c).screen (screenKey wayland screen) =
            c.screen (screenKey wayland screen) ∧
          ∀ e, c.m_screens (screenKey wayland screen) = some e →
            paintScreen pf wayland screen f c = c) ∧
      (f ≠ (c.screen (screenKey wayland screen)).scale →
        ((paintScreen pf wayland screen f c).screen (screenKey wayland screen)).scale = f ∧
          ((paintScreen pf wayland screen f c).screen (screenKey wayland screen)).sizeScaled
            = pf.arith.roundProduct (c.m_settings.cornerRadius * f) ∧
          (∀ (m : Int) (k : Nat), |m| ≤ 16777216 → k ≤ 64 →
            (c.m_settings.cornerRadius : ℚ) * f = (m : ℚ) / 2 ^ k →
            ((paintScreen pf wayland screen f c).screen
              (screenKey wayland screen)).sizeScaled = c.m_settings.cornerRadius * f) ∧
          (paintScreen pf wayland screen f c).screen (screenKey wayland screen) =
            builtEntry pf c.m_settings c.m_shadowOffset c.m_settings.cornerRadius f ∧
          paintScreenSetRoundness wayland screen f (paintScreen pf wayland screen f c)
            = false ∧
          paintScreen pf wayland screen f (paintScreen pf wayland screen f c) =
            paintScreen pf wayland screen f c) ∧
      ((tenRadiusCache pf).screen none).scale = 1 ∧
      ((tenRadiusCache pf).screen none).sizeScaled = 10 ∧
      ((paintScreen pf false 0 2 (tenRadiusCache pf)).screen none).sizeScaled = 20 := by
  refine ⟨by simp [paintScreenSetRoundness], ?_, ?_, ?_, ?_, ?_⟩
  · intro h
    rw [paintScreen_same _ _ _ _ _ h]
    exact ⟨screen_setScreen_same _ _ _, fun e he => setScreen_screen_of_some _ _ e he⟩
  · intro h
    have hs : (paintScreen pf wayland screen f c).screen (screenKey wayland screen) =
        builtEntry pf c.m_settings c.m_shadowOffset c.m_settings.cornerRadius f := by
      rw [paintScreen_changed _ _ _ _ _ h]
      simp [ScreenCache.screen]
    have hsc : f = ((paintScreen pf wayland screen f c).screen
        (screenKey wayland screen)).scale := by
      rw [hs]
      rfl
    refine ⟨hsc.symm, by rw [hs]; rfl, ?_, hs, ?_, ?_⟩
    · intro m k hm hk hq
      rw [hs]
      show pf.arith.roundProduct (c.m_settings.cornerRadius * f) = _
      rw [hq, pf.arith.roundProduct_exact m k hm hk]
    · simp only [paintScreenSetRoundness, ne_eq, decide_eq_false_iff_not, not_not]
      exact hsc
    · rw [paintScreen_same _ _ _ _ _ hsc]
      apply setScreen_screen_of_some _ _
        (builtEntry pf c.m_settings c.m_shadowOffset c.m_settings.cornerRadius f)
      rw [paintScreen_changed _ _ _ _ _ h]
      simp
  · rw [tenRadiusCache, (construct_single pf _ 0).2.2]
    rfl
  · rw [tenRadiusCache, (construct_single pf _ 0).2.2]
    have e : (((settingsWithRadius 10).cornerRadius : Int) : ℚ) * 1 = ((10 : Int) : ℚ) := by
      norm_num [settingsWithRadius]
    simp only [builtEntry]
    rw [e, roundProduct_intCast pf 10 (by decide)]
    norm_num
  · obtain ⟨h1, h2, h3⟩ := construct_single pf (settingsWithRadius 10) 0
    have hne : (2 : ℚ) ≠ ((tenRadiusCache pf).screen (screenKey false 0)).scale := by
      show (2 : ℚ) ≠ ((construct pf false [0] (settingsWithRadius 10) 0).screen none).scale
      rw [h3]
      simp [builtEntry]
    rw [paintScreen_changed _ _ _ _ _ hne]
    simp only [ScreenCache.screen, screenKey, Bool.false_eq_true, if_false, if_true,
      Option.getD_some, builtEntry]
    rw [tenRadiusCache, h2]
    have e : (((settingsWithRadius 10).cornerRadius : Int) : ℚ) * 2 = ((20 : Int) : ℚ) := by
      norm_num [settingsWithRadius]
    rw [e, roundProduct_intCast pf 20 (by decide)]
    norm_num

theorem reconfigure_consistent (pf : Platform) (wayland : Bool) (screens : List Nat)
    (settings : InternalSettings) (c : ScreenCache)
    (hc : ∀ j, j ∉ cachedKeys wayland screens → c.m_screens j = none) :
    CacheConsistent pf wayland screens (reconfigure pf wayland screens settings c) := by
  refine ⟨?_, ?_, ?_, ?_⟩
  · rw [reconfigure_shadowOffset, reconfigure_settings]
  · intro hne
    rw [reconfigure_size, reconfigure_settings, if_neg hne]
  · intro j
    rw [reconfigure_screens]
    by_cases hj : j ∈ cachedKeys wayland screens
    · simp [hj]
    · simp [hj, hc j hj]
  · intro j e he
    rw [reconfigure_screens] at he
    by_cases hj : j ∈ cachedKeys wayland screens
    · rw [if_pos hj] at he
      rw [reconfigure_shadowOffset, reconfigure_settings]
      cases he
      rfl
    · rw [if_neg hj, hc j hj] at he
      cases he

theorem paintScreen_consistent (pf : Platform) (wayland : Bool) (screens : List Nat)
    (screen : Nat) (f : ℚ) (c : ScreenCache) (hs : screen ∈ screens)
    (hc : CacheConsistent pf wayland screens c) :
    CacheConsistent pf wayland screens (paintScreen pf wayland screen f c) := by
  obtain ⟨h1, h2, h3, h4⟩ := hc
  have hk := screenKey_mem_cachedKeys wayland screens screen hs
  obtain ⟨e0, he0⟩ := (h3 _).mp hk
  by_cases hf : f = (c.screen (screenKey wayland screen)).scale
  · rw [paintScreen_same _ _ _ _ _ hf, setScreen_screen_of_some _ _ e0 he0]
    exact ⟨h1, h2, h3, h4⟩
  · rw [paintScreen_changed _ _ _ _ _ hf]
    refine ⟨h1, fun _ => rfl, ?_, ?_⟩
    · intro j
      by_cases hj : j = screenKey wayland screen
      · subst hj
        simp [hk]
      · simp only [hj, if_false]
        exact h3 j
    · intro j e he
      by_cases hj : j = screenKey wayland screen
      · subst hj
        simp only [if_true, Option.some.injEq] at he
        subst he
        rfl
      · simp only [hj, if_false] at he
        exact h4 j e he

/-- The induction behind the cache invariant: every reachable state of the
cache is consistent with the configuration. -/
theorem reachable_consistent (pf : Platform) (wayland : Bool) (screens : List Nat)
    (c : ScreenCache) (h : Reachable pf wayland screens c) :
    CacheConsistent pf wayland screens c := by
  induction h with
  | construct settings size0 =>
    obtain ⟨c1, h1, _, h3⟩ := construct_eq pf wayland screens settings size0
    rw [h1]
    exact reconfigure_consistent pf wayland screens settings c1 h3
  | reconfigure settings c _ ih =>
    apply reconfigure_consistent
    intro j hj
    cases hm : c.m_screens j with
    | none => rfl
    | some e => exact absurd ((ih.2.2.1 j).mpr ⟨e, hm⟩) hj
  | paintScreen screen scale c hs _ ih =>
    exact paintScreen_consistent pf wayland screens screen scale c hs ih

theorem fractionalScaleCache_reachable :
    Reachable samplePlatform false [0] fractionalScaleCache :=
  Reachable.paintScreen 0 (5 / 4) _ (by simp) (Reachable.construct _ _)

theorem reconfigure_current (pf : Platform) (wayland : Bool) (screens : List Nat)
    (settings : InternalSettings) (c : ScreenCache) :
    EntriesCurrent pf (cachedKeys wayland screens)
      (reconfigure pf wayland screens settings c) := by
  refine ⟨?_, ?_, ?_⟩
  · rw [reconfigure_shadowOffset, reconfigure_settings]
  · intro hne
    have hs : screens ≠ [] := by
      intro hnil
      subst hnil
      apply hne
      cases wayland <;> simp [cachedKeys]
    rw [reconfigure_size, reconfigure_settings, if_neg hs]
  · intro j hj
    refine ⟨_, by rw [reconfigure_screens, if_pos hj], ?_⟩
    rw [reconfigure_shadowOffset, reconfigure_settings]
    rfl

theorem paintScreen_current (pf : Platform) (wayland : Bool) (screen : Nat) (f : ℚ)
    (keys : List (Option Nat)) (c : ScreenCache) (hc : EntriesCurrent pf keys c) :
    EntriesCurrent pf
      (if paintScreenSetRoundness wayland screen f c = true then
        screenKey wayland screen :: keys
      else keys)
      (paintScreen pf wayland screen f c) := by
  obtain ⟨h1, h2, h3⟩ := hc
  by_cases hf : f = (c.screen (screenKey wayland screen)).scale
  · have hp : paintScreenSetRoundness wayland screen f c = false := by
      simp only [paintScreenSetRoundness, ne_eq, decide_eq_false_iff_not, not_not]
      exact hf
    rw [hp, paintScreen_same _ _ _ _ _ hf]
    simp only [Bool.false_eq_true, if_false]
    refine ⟨h1, h2, ?_⟩
    intro j hj
    obtain ⟨e, he, hb⟩ := h3 j hj
    refine ⟨e, ?_, hb⟩
    by_cases hjk : j = screenKey wayland screen
    · subst hjk
      simp [ScreenCache.setScreen, ScreenCache.screen, he]
    · simp [ScreenCache.setScreen, hjk, he]
  · have hp : paintScreenSetRoundness wayland screen f c = true := by
      simp only [paintScreenSetRoundness, ne_eq, decide_eq_true_eq]
      exact hf
    rw [hp, paintScreen_changed _ _ _ _ _ hf]
    simp only [if_true]
    refine ⟨h1, fun _ => rfl, ?_⟩
    intro j hj
    by_cases hjk : j = screenKey wayland screen
    · subst hjk
      exact ⟨builtEntry pf c.m_settings c.m_shadowOffset c.m_settings.cornerRadius f,
        by simp, rfl⟩
    · have hj2 : j ∈ keys := by
        rcases List.mem_cons.mp hj with h | h
        · exact absurd h hjk
        · exact h
      obtain ⟨e, he, hb⟩ := h3 j hj2
      exact ⟨e, by simp [hjk, he], hb⟩

/-- The induction behind the cache invariant when the screens of the host
change: the entries under the keys of a reachable state are the rebuilt
ones. -/
theorem reachableWith_current (pf : Platform) (wayland : Bool)
    (keys : List (Option Nat)) (c : ScreenCache) (h : ReachableWith pf wayland keys c) :
    EntriesCurrent pf keys c := by
  induction h with
  | construct screens settings size0 =>
    obtain ⟨c1, h1, _, _⟩ := construct_eq pf wayland screens settings size0
    rw [h1]
    exact reconfigure_current pf wayland screens settings c1
  | reconfigure screens settings keys c _ _ =>
    exact reconfigure_current pf wayland screens settings c
  | paintScreen screen scale keys c _ ih =>
    exact paintScreen_current pf wayland screen scale keys c ih

theorem staleEntryCache_reachable :
    ReachableWith samplePlatform true [some 0] staleEntryCache :=
  ReachableWith.reconfigure [0] (settingsWithRadius 5) _ _
    (ReachableWith.paintScreen 1 2 _ _
      (ReachableWith.construct [0, 1] (settingsWithRadius 10) 0))

/-- C8 (as stated, refuted), three reachable states of the cache.
Constructed with radius 3 and painted once at scale 5/4, the entry has scaled
radius 15/4 and a mask texture of side 10, not the stated
`2 x (scaledRadius + shadowOffset)`, which is 23/2. On Wayland, constructed
with screens 0 and 1 and radius 10, painted on screen 1 at scale 2 and then
reconfigured with radius 5 while the host lists screen 0 only, the cache still
holds the entry of screen 1 with scale 2 and scaled radius 20, while the
logical radius is 5. On Wayland, constructed with screen 0 and painted on
screen 1 at the scale a new entry starts with, the cache holds for screen 1 a
new entry, which has no texture and no region. -/
theorem cache_entry_mismatch :
    (∃ keys, ReachableWith samplePlatform false keys fractionalScaleCache ∧
      ∃ e img, fractionalScaleCache.m_screens none = some e ∧ e.maskTex = some img ∧
        e.sizeScaled = 15 / 4 ∧ img.width = 10 ∧
        (img.width : ℚ) ≠ 2 * (e.sizeScaled + fractionalScaleCache.m_shadowOffset)) ∧
    (∃ keys, ReachableWith samplePlatform true keys staleEntryCache ∧
      ∃ e, staleEntryCache.m_screens (some 1) = some e ∧
        staleEntryCache.m_size = 5 ∧ e.scale = 2 ∧ e.sizeScaled = 20 ∧
        e.sizeScaled ≠ staleEntryCache.m_size * e.scale) ∧
    (∃ keys, ReachableWith samplePlatform true keys unbuiltEntryCache ∧
      ∃ e, unbuiltEntryCache.m_screens (some 1) = some e ∧
        e.maskTex = none ∧ e.lightOutlineTex = none ∧ e.darkOutlineTex = none ∧
        e.maskRegion Corner.TopLeft = none) := by
  refine ⟨?_, ?_, ?_⟩
  · refine ⟨_, ReachableWith.paintScreen 0 (5 / 4) _ _
      (ReachableWith.construct [0] (settingsWithRadius 3) 0), ?_⟩
    obtain ⟨h1, h2, h3, h4⟩ := reachable_consistent _ _ _ _ fractionalScaleCache_reachable
    obtain ⟨e, he⟩ := (h3 none).mp (by simp [cachedKeys])
    obtain ⟨ho, hs⟩ := fractionalScaleCache_eq
    have hsc : e.scale = 5 / 4 := by
      rw [← hs]
      simp [ScreenCache.screen, he]
    have hset : fractionalScaleCache.m_settings.cornerRadius = 3 := by
      have := h2 (by simp)
      rw [← this]
      unfold fractionalScaleCache
      rw [paintScreen_changed]
      · exact (construct_single samplePlatform (settingsWithRadius 3) 0).2.1 ▸ rfl
      · show (5 / 4 : ℚ) ≠
          ((construct samplePlatform false [0] (settingsWithRadius 3) 0).screen none).scale
        rw [(construct_single samplePlatform (settingsWithRadius 3) 0).2.2]
        simp only [builtEntry]
        norm_num
    have hb := h4 none e he
    rw [hsc, hset, ho] at hb
    have ht := truncated_size_fractional samplePlatform
    have hw : (genMaskImg fractionalScaleCache.m_settings 2
        (truncToInt (samplePlatform.arith.roundSum
          (samplePlatform.arith.roundProduct (((3 : Int) : ℚ) * (5 / 4)) + ((2 : Int) : ℚ))))
        true false).width = 10 := by
      rw [(genMaskImg_side _ _ _ _ _).1, ht]
      rfl
    have hsz : e.sizeScaled = 15 / 4 := by
      rw [hb]
      show samplePlatform.arith.roundProduct (((3 : Int) : ℚ) * (5 / 4)) = 15 / 4
      have e1 : ((3 : Int) : ℚ) * (5 / 4) = ((15 : Int) : ℚ) / 4 := by norm_num
      rw [e1, roundProduct_quarters samplePlatform 15 (by decide)]
      norm_num
    refine ⟨e, _, he, ?_, hsz, hw, ?_⟩
    · rw [hb]
      rfl
    · rw [hw, ho, hsz]
      norm_num
  · refine ⟨_, staleEntryCache_reachable, ?_⟩
    obtain ⟨c1, hc, hsc, _⟩ := construct_eq samplePlatform true [0, 1] (settingsWithRadius 10) 0
    have hscale : ((construct samplePlatform true [0, 1] (settingsWithRadius 10) 0).screen
        (screenKey true 1)).scale = 1 := by
      rw [hc, reconfigure_screen_of_mem _ _ _ _ _ _ (by simp [cachedKeys, screenKey])]
      exact hsc _
    have hne : (2 : ℚ) ≠ ((construct samplePlatform true [0, 1] (settingsWithRadius 10) 0).screen
        (screenKey true 1)).scale := by
      rw [hscale]
      norm_num
    have hset : (construct samplePlatform true [0, 1] (settingsWithRadius 10) 0).m_settings =
        settingsWithRadius 10 := by
      rw [hc, reconfigure_settings]
    have hentry : staleEntryCache.m_screens (some 1) =
        some (builtEntry samplePlatform (settingsWithRadius 10)
          (construct samplePlatform true [0, 1] (settingsWithRadius 10) 0).m_shadowOffset
          (settingsWithRadius 10).cornerRadius 2) := by
      unfold staleEntryCache
      rw [reconfigure_screens, if_neg (by simp [cachedKeys]), paintScreen_changed _ _ _ _ _ hne,
        hset]
      simp [screenKey]
    have hsize : staleEntryCache.m_size = 5 := by
      unfold staleEntryCache
      rw [reconfigure_size, if_neg (by simp)]
      rfl
    have hprod : samplePlatform.arith.roundProduct
        ((((settingsWithRadius 10).cornerRadius : Int) : ℚ) * 2) = 20 := by
      have e : (((settingsWithRadius 10).cornerRadius : Int) : ℚ) * 2 = ((20 : Int) : ℚ) := by
        norm_num [settingsWithRadius]
      rw [e, roundProduct_intCast samplePlatform 20 (by decide)]
      norm_num
    refine ⟨_, hentry, hsize, rfl, hprod, ?_⟩
    rw [hsize]
    show samplePlatform.arith.roundProduct
        ((((settingsWithRadius 10).cornerRadius : Int) : ℚ) * 2) ≠ ((5 : Int) : ℚ) * 2
    rw [hprod]
    norm_num
  · refine ⟨_, ReachableWith.paintScreen 1 ScreenState.fresh.scale _ _
      (ReachableWith.construct [0] (settingsWithRadius 8) 0), ?_⟩
    obtain ⟨c1, hc, _, hnone⟩ := construct_eq samplePlatform true [0] (settingsWithRadius 8) 0
    have hm : (construct samplePlatform true [0] (settingsWithRadius 8) 0).m_screens (some 1) =
        none := by
      rw [hc, reconfigure_screens, if_neg (by simp [cachedKeys])]
      exact hnone _ (by simp [cachedKeys])
    have hfresh : (construct samplePlatform true [0] (settingsWithRadius 8) 0).screen
        (screenKey true 1) = ScreenState.fresh := by
      simp [ScreenCache.screen, screenKey, hm]
    refine ⟨ScreenState.fresh, ?_, rfl, rfl, rfl, rfl⟩
    unfold unbuiltEntryCache
    rw [paintScreen_same _ _ _ _ _ (by rw [hfresh]), hfresh]
    simp [ScreenCache.setScreen, screenKey]

/-- C8 (amended): after the constructor's reconfiguration and after every
later `reconfigure` or `paintScreen`, the shadow offset is the clamped one
and, for every screen that the latest `reconfigure` enumerated or that
`paintScreen` has rebuilt since, the cache holds an entry, the logical radius
is the configured radius, the scaled radius of the entry is the
floating-point product of the logical radius and the cached scale factor, the
mask texture and both outline textures are square of side twice the `int`
conversion of the floating-point sum of scaled radius and shadow offset (0
when that is negative), and the four corner regions are the ones derived from
the current logical radius, shadow offset and settings. -/
theorem reachableWith_cache_consistent (pf : Platform) (wayland : Bool)
    (keys : List (Option Nat)) (c : ScreenCache) (h : ReachableWith pf wayland keys c)
    (j : Option Nat) (hj : j ∈ keys) :
    ∃ e, c.m_screens j = some e ∧
      c.m_size = c.m_settings.cornerRadius ∧
      c.m_shadowOffset = clampedShadowOffset c.m_settings.cornerRadius ∧
      e.sizeScaled = pf.arith.roundProduct (c.m_size * e.scale) ∧
      (∃ m l d, e.maskTex = some m ∧ e.lightOutlineTex = some l ∧
        e.darkOutlineTex = some d ∧
        m.width = 2 * max 0
          (truncToInt (pf.arith.roundSum (e.sizeScaled + c.m_shadowOffset))) ∧
        m.height = 2 * max 0
          (truncToInt (pf.arith.roundSum (e.sizeScaled + c.m_shadowOffset))) ∧
        l.width = 2 * max 0
          (truncToInt (pf.arith.roundSum (e.sizeScaled + c.m_shadowOffset))) ∧
        l.height = 2 * max 0
          (truncToInt (pf.arith.roundSum (e.sizeScaled + c.m_shadowOffset))) ∧
        d.width = 2 * max 0
          (truncToInt (pf.arith.roundSum (e.sizeScaled + c.m_shadowOffset))) ∧
        d.height = 2 * max 0
          (truncToInt (pf.arith.roundSum (e.sizeScaled + c.m_shadowOffset)))) ∧
      e.maskRegion =
        cornerRegions pf.raster
          (genMaskImg c.m_settings c.m_shadowOffset (c.m_size + c.m_shadowOffset) true false)
          (c.m_size + c.m_shadowOffset) := by
  obtain ⟨h1, h2, h3⟩ := reachableWith_current pf wayland keys c h
  have hsize := h2 (List.ne_nil_of_mem hj)
  obtain ⟨e, he, hb⟩ := h3 j hj
  have hsz : e.sizeScaled = pf.arith.roundProduct (c.m_settings.cornerRadius * e.scale) := by
    rw [hb]
    rfl
  refine ⟨e, he, hsize, h1, by rw [hsize]; exact hsz, ?_, ?_⟩
  · refine ⟨genMaskImg c.m_settings c.m_shadowOffset
        (truncToInt (pf.arith.roundSum
          (pf.arith.roundProduct (c.m_settings.cornerRadius * e.scale) + c.m_shadowOffset)))
        true false,
      genMaskImg c.m_settings c.m_shadowOffset
        (truncToInt (pf.arith.roundSum
          (pf.arith.roundProduct (c.m_settings.cornerRadius * e.scale) + c.m_shadowOffset)))
        false false,
      genMaskImg c.m_settings c.m_shadowOffset
        (truncToInt (pf.arith.roundSum
          (pf.arith.roundProduct (c.m_settings.cornerRadius * e.scale) + c.m_shadowOffset)))
        false true,
      ?_, ?_, ?_, ?_⟩
    · rw [hb]
      rfl
    · rw [hb]
      rfl
    · rw [hb]
      rfl
    · rw [hsz]
      simp only [(genMaskImg_side _ _ _ _ _).1, (genMaskImg_side _ _ _ _ _).2,
        imageSide_eq_max, and_self]
  · rw [hsize, hb]
    rfl

/-- The cache painted at scale 5/4 holds, for the screen that was rebuilt,
an entry whose scaled radius is the product of logical radius and scale. -/
theorem reachableWith_cache_consistent_witness :
    ∃ e, fractionalScaleCache.m_screens none = some e ∧
      fractionalScaleCache.m_size = fractionalScaleCache.m_settings.cornerRadius ∧
      e.sizeScaled =
        samplePlatform.arith.roundProduct (fractionalScaleCache.m_size * e.scale) := by
  obtain ⟨e, he, h⟩ := reachableWith_cache_consistent samplePlatform false _
    fractionalScaleCache
    (ReachableWith.paintScreen 0 (5 / 4) _ _
      (ReachableWith.construct [0] (settingsWithRadius 3) 0))
    none (by split_ifs <;> simp [screenKey, cachedKeys])
  exact ⟨e, he, h.1, h.2.2.1⟩

/-! ### Blur region -/

theorem mem_rectRegion (x y w h : Int) (p : Int × Int) :
    p ∈ rectRegion x y w h ↔ x ≤ p.1 ∧ p.1 < x + w ∧ y ≤ p.2 ∧ p.2 < y + h := by
  simp [rectRegion, Finset.mem_product, and_assoc]

theorem subtractCorners_eq (pf : Platform) (c : ScreenCache) (w : EffectWindow)
    (b : QRegion) :
    subtractCorners c.m_size c.m_shadowOffset w (logicalCornerRegion pf c) b =
      b \ (notch pf c w Corner.TopLeft ∪ notch pf c w Corner.TopRight ∪
        notch pf c w Corner.BottomRight ∪ notch pf c w Corner.BottomLeft) := by
  have h0 : (0 : Int) - c.m_shadowOffset + 1 = 1 - c.m_shadowOffset := by ring
  ext p
  simp only [subtractCorners, notch, notchOrigin, h0, Finset.mem_sdiff, Finset.mem_union]
  tauto

/-- The blur block for a valid window on a screen of a reachable cache: the
starting region with the four notches taken out. -/
theorem prePaintWindowBlur_reachable (pf : Platform) (fx : Effects) (st : WindowStore)
    (wayland : Bool) (screens : List Nat) (c : ScreenCache) (w : EffectWindow)
    (inp : BlurInputs) (hr : Reachable pf wayland screens c) (hs : w.screen ∈ screens)
    (hv : isValidWindow fx st w 0 = true) :
    prePaintWindowBlur fx st wayland c w inp =
      some ((blurStartRegion w (declaredBlurRegion inp)).map fun b =>
        b \ (notch pf c w Corner.TopLeft ∪ notch pf c w Corner.TopRight ∪
          notch pf c w Corner.BottomRight ∪ notch pf c w Corner.BottomLeft)) := by
  obtain ⟨h1, h2, h3, h4⟩ := reachable_consistent pf wayland screens c hr
  obtain ⟨e, he⟩ := (h3 _).mp (screenKey_mem_cachedKeys wayland screens w.screen hs)
  have hne : screens ≠ [] := by
    intro hnil
    rw [hnil] at hs
    simp at hs
  have hreg : (c.screen (screenKey wayland w.screen)).maskRegion =
      cornerRegions pf.raster
        (genMaskImg c.m_settings c.m_shadowOffset (c.m_size + c.m_shadowOffset) true false)
        (c.m_size + c.m_shadowOffset) := by
    have hb := h4 _ e he
    simp only [ScreenCache.screen, he, Option.getD_some]
    rw [hb, h2 hne]
    rfl
  have hfun : (fun corner : Corner =>
      match corner with
      | Corner.TopLeft => quadrantRegion pf.raster
          (genMaskImg c.m_settings c.m_shadowOffset (c.m_size + c.m_shadowOffset) true false)
          0 0 (c.m_size + c.m_shadowOffset)
      | Corner.TopRight => quadrantRegion pf.raster
          (genMaskImg c.m_settings c.m_shadowOffset (c.m_size + c.m_shadowOffset) true false)
          (c.m_size + c.m_shadowOffset) 0 (c.m_size + c.m_shadowOffset)
      | Corner.BottomRight => quadrantRegion pf.raster
          (genMaskImg c.m_settings c.m_shadowOffset (c.m_size + c.m_shadowOffset) true false)
          (c.m_size + c.m_shadowOffset) (c.m_size + c.m_shadowOffset)
          (c.m_size + c.m_shadowOffset)
      | Corner.BottomLeft => quadrantRegion pf.raster
          (genMaskImg c.m_settings c.m_shadowOffset (c.m_size + c.m_shadowOffset) true false)
          0 (c.m_size + c.m_shadowOffset) (c.m_size + c.m_shadowOffset)) =
      logicalCornerRegion pf c := by
    funext corner
    cases corner <;> rfl
  unfold prePaintWindowBlur
  rw [if_neg (by simp [hv])]
  simp only [hreg, cornerRegions, hfun]
  congr 1
  cases blurStartRegion w (declaredBlurRegion inp) with
  | none => rfl
  | some b => simp only [Option.map_some', subtractCorners_eq]

theorem truncToInt_eq (q : ℚ) (n : Int) (h : q = n) : truncToInt q = n := by
  rw [h, truncToInt_intCast]

theorem eightRadiusCache_eq (pf : Platform) :
    Reachable pf false [0] (eightRadiusCache pf) ∧
      (eightRadiusCache pf).m_size = 8 ∧ (eightRadiusCache pf).m_shadowOffset = 2 := by
  have hr : Reachable pf false [0] (eightRadiusCache pf) := Reachable.construct _ _
  obtain ⟨h1, h2, _, _⟩ := reachable_consistent _ _ _ _ hr
  have hs : (eightRadiusCache pf).m_settings = settingsWithRadius 8 :=
    (construct_single pf (settingsWithRadius 8) 0).2.1
  refine ⟨hr, ?_, ?_⟩
  · rw [h2 (by simp), hs]
    rfl
  · rw [h1, hs]
    decide

theorem declaredBlurRegion_small :
    declaredBlurRegion smallBlurInputs = rectRegion 0 0 10 10 := by
  simp [declaredBlurRegion, smallBlurInputs, rectBlurInputs, cardinalsOf, addBlurRects, toInt32]

theorem declaredBlurRegion_none : declaredBlurRegion noBlurInputs = ∅ := by
  simp [declaredBlurRegion, noBlurInputs]

theorem rectRegion_ne_empty (w h : Int) (hw : 0 < w) (hh : 0 < h) :
    rectRegion 0 0 w h ≠ ∅ := by
  intro he
  have : ((0, 0) : Int × Int) ∈ rectRegion 0 0 w h := by
    rw [mem_rectRegion]
    simp only
    omega
  rw [he] at this
  simp at this

theorem isValidWindow_blurWindow :
    isValidWindow sampleEffects (managedStore sampleSettings) blurWindow 0 = true := by
  simp [isValidWindow, managedStore, WindowStore.window, blurWindow, sampleWindow,
    sampleEffects, sampleRect, QRectF.intersects, spansOverlap, spanLow, spanHigh]
  norm_num

theorem isValidWindow_konsoleWindow :
    isValidWindow sampleEffects (managedStore sampleSettings) konsoleWindow 0 = true := by
  simp [isValidWindow, managedStore, WindowStore.window, konsoleWindow, blurWindow,
    sampleWindow, sampleEffects, sampleRect, QRectF.intersects, spansOverlap, spanLow,
    spanHigh]
  norm_num

theorem konsoleWindow_terminal : isTerminalClass konsoleWindow := by
  unfold isTerminalClass
  decide

theorem blurStartRegion_terminal (w : EffectWindow) (b : QRegion) (h : isTerminalClass w) :
    blurStartRegion w b =
      some (rectRegion 0 0 (truncToInt w.frameGeometry.width)
        (truncToInt w.frameGeometry.height)) := by
  unfold isTerminalClass at h
  unfold blurStartRegion
  simp only []
  rw [if_pos (Or.inr h), if_pos h]

theorem blurStartRegion_declared (w : EffectWindow) (b : QRegion) (h : ¬ isTerminalClass w)
    (hb : b ≠ ∅) : blurStartRegion w b = some b := by
  unfold isTerminalClass at h
  unfold blurStartRegion
  simp only []
  rw [if_pos (Or.inl hb), if_neg h]

theorem blurStartRegion_skipped (w : EffectWindow) (b : QRegion) (h : ¬ isTerminalClass w)
    (hb : b = ∅) : blurStartRegion w b = none := by
  unfold isTerminalClass at h
  unfold blurStartRegion
  simp only []
  rw [if_neg]
  rintro (h1 | h2)
  · exact h1 hb
  · exact h h2

theorem konsoleWindow_start (b : QRegion) :
    blurStartRegion konsoleWindow b = some (rectRegion 0 0 200 100) := by
  rw [blurStartRegion_terminal _ _ konsoleWindow_terminal]
  have e1 : truncToInt konsoleWindow.frameGeometry.width = 200 :=
    truncToInt_eq _ _ (by norm_num [konsoleWindow, blurWindow, sampleWindow, sampleRect])
  have e2 : truncToInt konsoleWindow.frameGeometry.height = 100 :=
    truncToInt_eq _ _ (by norm_num [konsoleWindow, blurWindow, sampleWindow, sampleRect])
  rw [e1, e2]

theorem rectRegion_ne_of_mem (a b : QRegion) (p : Int × Int) (ha : p ∈ a) (hb : p ∉ b) :
    a ≠ b := by
  intro h
  rw [h] at ha
  exact hb ha

/-- C10 (as stated, refuted): for the valid `konsole` window with the
declared, non-empty blur region (0, 0, 10, 10) the starting region is the
rectangle (0, 0, 200, 100) of the frame size, not the declared region; and
for the `konsole` window with a title bar and no declared region the
starting region is (0, 0, 200, 130), the size of the frame, which is not the
rectangle of its 200 by 100 content rect. -/
theorem blurStartRegion_konsole :
    isValidWindow sampleEffects (managedStore sampleSettings) konsoleWindow 0 = true ∧
      declaredBlurRegion smallBlurInputs ≠ ∅ ∧
      blurStartRegion konsoleWindow (declaredBlurRegion smallBlurInputs)
        = some (rectRegion 0 0 200 100) ∧
      rectRegion 0 0 200 100 ≠ declaredBlurRegion smallBlurInputs ∧
      declaredBlurRegion noBlurInputs = ∅ ∧
      blurStartRegion konsoleTitleWindow (declaredBlurRegion noBlurInputs)
        = some (rectRegion 0 0 200 130) ∧
      contentsRegion konsoleTitleWindow = rectRegion 0 30 200 100 ∧
      rectRegion 0 0 200 130 ≠ contentsRegion konsoleTitleWindow ∧
      rectRegion 0 0 200 130 ≠ rectRegion 0 0 200 100 := by
  have e1 : truncToInt konsoleTitleWindow.frameGeometry.width = 200 :=
    truncToInt_eq _ _ (by norm_num [konsoleTitleWindow])
  have e2 : truncToInt konsoleTitleWindow.frameGeometry.height = 130 :=
    truncToInt_eq _ _ (by norm_num [konsoleTitleWindow])
  have e3 : truncToInt konsoleTitleWindow.contentsRect.x = 0 :=
    truncToInt_eq _ _ (by norm_num [konsoleTitleWindow])
  have e4 : truncToInt konsoleTitleWindow.contentsRect.y = 30 :=
    truncToInt_eq _ _ (by norm_num [konsoleTitleWindow])
  have e5 : truncToInt konsoleTitleWindow.contentsRect.width = 200 :=
    truncToInt_eq _ _ (by norm_num [konsoleTitleWindow])
  have e6 : truncToInt konsoleTitleWindow.contentsRect.height = 100 :=
    truncToInt_eq _ _ (by norm_num [konsoleTitleWindow])
  have hc : contentsRegion konsoleTitleWindow = rectRegion 0 30 200 100 := by
    rw [contentsRegion, e3, e4, e5, e6]
  have ht : isTerminalClass konsoleTitleWindow := by
    unfold isTerminalClass
    decide
  refine ⟨isValidWindow_konsoleWindow, ?_, konsoleWindow_start _, ?_, declaredBlurRegion_none,
    ?_, hc, ?_, ?_⟩
  · rw [declaredBlurRegion_small]
    exact rectRegion_ne_empty _ _ (by omega) (by omega)
  · rw [declaredBlurRegion_small]
    apply rectRegion_ne_of_mem _ _ (100, 50) <;> simp [mem_rectRegion]
  · rw [blurStartRegion_terminal _ _ ht, e1, e2]
  · rw [hc]
    apply rectRegion_ne_of_mem _ _ (0, 0) <;> simp [mem_rectRegion]
  · apply rectRegion_ne_of_mem _ _ (0, 129) <;> simp [mem_rectRegion]

/-- C10 (amended): for every valid window on a screen of a reachable cache,
the starting region of the blur computation is chosen as follows: if the
window class contains `konsole` or `yakuake` (case-insensitive) it is the
rectangle (0, 0, frame width, frame height), whether or not a blur region is
declared; otherwise, if the declared blur region is not empty, it is that
declared region; otherwise there is no starting region and no blur-behind
request is made. When there is a starting region, the request is made with
that region minus the four notches. -/
theorem blurStartRegion_choice (pf : Platform) (fx : Effects) (st : WindowStore)
    (wayland : Bool) (screens : List Nat) (c : ScreenCache) (w : EffectWindow)
    (inp : BlurInputs) (hr : Reachable pf wayland screens c) (hs : w.screen ∈ screens)
    (hv : isValidWindow fx st w 0 = true) :
    (isTerminalClass w →
        blurStartRegion w (declaredBlurRegion inp) = some (frameSizeRegion w) ∧
        prePaintWindowBlur fx st wayland c w inp =
          some (some (frameSizeRegion w \
            (notch pf c w Corner.TopLeft ∪ notch pf c w Corner.TopRight ∪
              notch pf c w Corner.BottomRight ∪ notch pf c w Corner.BottomLeft)))) ∧
      (¬ isTerminalClass w → declaredBlurRegion inp ≠ ∅ →
        blurStartRegion w (declaredBlurRegion inp) = some (declaredBlurRegion inp) ∧
        prePaintWindowBlur fx st wayland c w inp =
          some (some (declaredBlurRegion inp \
            (notch pf c w Corner.TopLeft ∪ notch pf c w Corner.TopRight ∪
              notch pf c w Corner.BottomRight ∪ notch pf c w Corner.BottomLeft)))) ∧
      (¬ isTerminalClass w → declaredBlurRegion inp = ∅ →
        blurStartRegion w (declaredBlurRegion inp) = none ∧
        prePaintWindowBlur fx st wayland c w inp = some none) := by
  have hrun := prePaintWindowBlur_reachable pf fx st wayland screens c w inp hr hs hv
  refine ⟨fun ht => ?_, fun ht hB => ?_, fun ht hB => ?_⟩
  · have h := blurStartRegion_terminal w (declaredBlurRegion inp) ht
    rw [h] at hrun
    exact ⟨h, hrun⟩
  · have h := blurStartRegion_declared w (declaredBlurRegion inp) ht hB
    rw [h] at hrun
    exact ⟨h, hrun⟩
  · have h := blurStartRegion_skipped w (declaredBlurRegion inp) ht hB
    rw [h] at hrun
    exact ⟨h, hrun⟩

/-- The valid `konsole` sample window starts from the rectangle of its frame
size. -/
theorem blurStartRegion_choice_witness :
    isValidWindow sampleEffects (managedStore sampleSettings) konsoleWindow 0 = true ∧
      blurStartRegion konsoleWindow (declaredBlurRegion smallBlurInputs)
        = some (frameSizeRegion konsoleWindow) :=
  ⟨isValidWindow_konsoleWindow,
    ((blurStartRegion_choice samplePlatform sampleEffects (managedStore sampleSettings) false [0]
      (eightRadiusCache samplePlatform) konsoleWindow smallBlurInputs
      (eightRadiusCache_eq samplePlatform).1 (by simp [konsoleWindow, blurWindow, sampleWindow])
      isValidWindow_konsoleWindow).1 konsoleWindow_terminal).1⟩

/-! ### Idempotence of the rebuild -/

/-- C14: the screen-cache rebuild is idempotent. For every radius `r` and
screen `s`, with the scale factor, shadow offset and settings as they are,
`setRoundness(r, s)` called twice in a row leaves the same cache as one call:
the same logical radius, and for the screen the same scaled radius, mask
image, light and dark outline images and four corner regions. -/
theorem setRoundness_idempotent (pf : Platform) (r : Int) (s : Option Nat)
    (c : ScreenCache) :
    setRoundness pf r s (setRoundness pf r s c) = setRoundness pf r s c ∧
      (setRoundness pf r s (setRoundness pf r s c)).m_size
        = (setRoundness pf r s c).m_size ∧
      ((setRoundness pf r s (setRoundness pf r s c)).screen s).sizeScaled
        = ((setRoundness pf r s c).screen s).sizeScaled ∧
      ((setRoundness pf r s (setRoundness pf r s c)).screen s).maskTex
        = ((setRoundness pf r s c).screen s).maskTex ∧
      ((setRoundness pf r s (setRoundness pf r s c)).screen s).lightOutlineTex
        = ((setRoundness pf r s c).screen s).lightOutlineTex ∧
      ((setRoundness pf r s (setRoundness pf r s c)).screen s).darkOutlineTex
        = ((setRoundness pf r s c).screen s).darkOutlineTex ∧
      ((setRoundness pf r s (setRoundness pf r s c)).screen s).maskRegion
        = ((setRoundness pf r s c).screen s).maskRegion := by
  have key : setRoundness pf r s (setRoundness pf r s c) =
      setRoundness pf r s c := by
    have hsc : ((setRoundness pf r s c).screen s).scale = (c.screen s).scale :=
      setRoundness_scale pf r s s c
    rw [setRoundness_eq pf r s (setRoundness pf r s c), hsc]
    rw [setRoundness_eq pf r s c]
    simp only [ScreenCache.mk.injEq, and_true, true_and]
    funext j
    by_cases hj : j = s <;> simp [hj]
  refine ⟨key, ?_, ?_, ?_, ?_, ?_, ?_⟩ <;> rw [key]

/-! ### Maximize events for unmanaged windows -/

/-- A window that a short-circuit catches and that had no entry before
`windowAdded` has a null settings pointer afterwards, and the maximize
handler, which reads through that pointer, has no result for it. -/
theorem maximize_after_unmanaged_add (fx : Effects) (w : EffectWindow) (st : WindowStore)
    (h : roleExcluded w ∨ shellExcluded w ∨ ideSubWindow w ∨ shellNonWindow w ∨
      kindExcluded w)
    (hnew : st.m_windows w.id = none) (horizontal vertical : Bool) :
    ((windowAdded fx w st).window w.id).settings = none ∧
      windowMaximizedStateChanged w horizontal vertical (windowAdded fx w st) = none := by
  have hs : ((windowAdded fx w st).window w.id).settings = none := by
    rw [windowAdded_entry_unmanaged fx w st h]
    simp [WindowStore.window, hnew, WindowState.fresh]
  refine ⟨hs, ?_⟩
  unfold windowMaximizedStateChanged
  rw [hs]

/-- C15 (the code at the failing input): the dock window added to a store
without windows is left unmanaged with a null settings pointer, and a later
maximize-state event, with any flags, reads through that pointer: the
handler has no result and no state to leave unchanged. -/
theorem maximize_dock_fails :
    ((windowAdded sampleEffects dockWindow emptyStore).window dockWindow.id).isManaged = false ∧
      ((windowAdded sampleEffects dockWindow emptyStore).window dockWindow.id).settings
        = none ∧
      ∀ horizontal vertical : Bool,
        windowMaximizedStateChanged dockWindow horizontal vertical
          (windowAdded sampleEffects dockWindow emptyStore) = none := by
  have hx : roleExcluded dockWindow ∨ shellExcluded dockWindow ∨ ideSubWindow dockWindow ∨
      shellNonWindow dockWindow ∨ kindExcluded dockWindow :=
    Or.inl (by simp [roleExcluded, unmanagedRoles, dockWindow])
  refine ⟨?_, (maximize_after_unmanaged_add sampleEffects dockWindow emptyStore hx rfl
    true true).1, fun hz vt =>
    (maximize_after_unmanaged_add sampleEffects dockWindow emptyStore hx rfl hz vt).2⟩
  rw [windowAdded_entry_unmanaged _ _ _ hx]

/-! ### What the classifier depends on -/

theorem excluded_congr (w1 w2 : EffectWindow) (h : classifierInputsAgree w1 w2)
    (hk : kindFlagsAgree w1 w2) :
    (roleExcluded w1 ∨ shellExcluded w1 ∨ ideSubWindow w1 ∨ shellNonWindow w1 ∨
        kindExcluded w1) ↔
      (roleExcluded w2 ∨ shellExcluded w2 ∨ ideSubWindow w2 ∨ shellNonWindow w2 ∨
        kindExcluded w2) := by
  obtain ⟨a1, a2, a3, a4, a5, a6, a7, a8⟩ := h
  obtain ⟨b1, b2, b3, b4, b5, b6, b7, b8, b9⟩ := hk
  rw [roleExcluded_iff, shellExcluded_iff, ideSubWindow_iff, shellNonWindow_iff,
    kindExcluded_iff, roleExcluded_iff, shellExcluded_iff, ideSubWindow_iff,
    shellNonWindow_iff, kindExcluded_iff, a1, a2, a3, a4, a5, a6, a7, a8, b1, b2, b3, b4, b5,
    b6, b7, b8, b9]

theorem windowAdded_isManaged_iff (fx : Effects) (w : EffectWindow) (st : WindowStore) :
    ((windowAdded fx w st).window w.id).isManaged = true ↔
      ¬ (roleExcluded w ∨ shellExcluded w ∨ ideSubWindow w ∨ shellNonWindow w ∨
        kindExcluded w) := by
  by_cases h : roleExcluded w ∨ shellExcluded w ∨ ideSubWindow w ∨ shellNonWindow w ∨
      kindExcluded w
  · rw [windowAdded_entry_unmanaged fx w st h]
    simp [h]
  · rw [windowAdded_entry_managed fx w st h]
    simp [h]

/-- C13 (as stated, refuted): the sample window and the same window in
full-screen mode agree on role, class, caption, decoration presence, the
normal, dialog and modal flags and the has-shadow flag, and `windowAdded`
manages the first and not the second; and for the sample window alone, a host
whose maximize area is the frame of the window and whose settings disable the
effect for maximized windows yields `skipEffect` true where the sample host
yields false. -/
theorem windowAdded_depends_on_more :
    classifierInputsAgree sampleWindow fullScreenWindow ∧
      ((windowAdded sampleEffects sampleWindow emptyStore).window sampleWindow.id).isManaged
        = true ∧
      ((windowAdded sampleEffects fullScreenWindow emptyStore).window
        fullScreenWindow.id).isManaged = false ∧
      classifierInputsAgree sampleWindow sampleWindow ∧
      ((windowAdded sampleEffects sampleWindow emptyStore).window sampleWindow.id).skipEffect
        = false ∧
      ((windowAdded maximizedEffects sampleWindow emptyStore).window sampleWindow.id).skipEffect
        = true := by
  have hfull : kindExcluded fullScreenWindow := Or.inr (Or.inl rfl)
  refine ⟨?_, ?_, ?_, ?_, ?_, ?_⟩
  · exact ⟨rfl, rfl, rfl, rfl, rfl, rfl, rfl, rfl⟩
  · rw [windowAdded_entry_managed _ _ _ sampleWindow_not_excluded]
  · rw [windowAdded_entry_unmanaged _ _ _ (Or.inr (Or.inr (Or.inr (Or.inr hfull))))]
  · exact ⟨rfl, rfl, rfl, rfl, rfl, rfl, rfl, rfl⟩
  · rw [windowAdded_entry_managed _ _ _ sampleWindow_not_excluded]
    simp [sampleEffects, sampleSettings]
  · rw [windowAdded_entry_managed _ _ _ sampleWindow_not_excluded]
    simp [maximizedEffects, maximizedOffSettings, sampleWindow]

/-- C13 (amended): the managed decision of `windowAdded` is a function of
the window role, class, caption, decoration presence, the normal, dialog and
modal flags, the has-shadow flag and the nine kind flags (desktop,
full-screen, popup-menu, tooltip, special, dropdown-menu, popup, lock-screen,
splash): two calls whose windows agree on these leave the same `isManaged`,
whatever the stores, hosts and other attributes are. For managed windows
`skipEffect` is the same as well when the two calls also agree on whether
the window fills the maximize area with settings that disable the effect for
maximized windows. -/
theorem windowAdded_decision_inputs (fx1 fx2 : Effects) (w1 w2 : EffectWindow)
    (st1 st2 : WindowStore) (h : classifierInputsAgree w1 w2) (hk : kindFlagsAgree w1 w2) :
    ((windowAdded fx1 w1 st1).window w1.id).isManaged =
        ((windowAdded fx2 w2 st2).window w2.id).isManaged ∧
      (maximizedAndDisabled fx1 w1 = maximizedAndDisabled fx2 w2 →
        ((windowAdded fx1 w1 st1).window w1.id).isManaged = true →
        ((windowAdded fx1 w1 st1).window w1.id).skipEffect =
          ((windowAdded fx2 w2 st2).window w2.id).skipEffect) := by
  have hc := excluded_congr w1 w2 h hk
  have hm : ((windowAdded fx1 w1 st1).window w1.id).isManaged =
      ((windowAdded fx2 w2 st2).window w2.id).isManaged := by
    rw [Bool.eq_iff_iff, windowAdded_isManaged_iff, windowAdded_isManaged_iff, hc]
  refine ⟨hm, fun hmax h1 => ?_⟩
  have h2 : ((windowAdded fx2 w2 st2).window w2.id).isManaged = true := by
    rw [← hm]
    exact h1
  rw [windowAdded_isManaged_iff] at h1 h2
  rw [windowAdded_entry_managed fx1 w1 st1 h1, windowAdded_entry_managed fx2 w2 st2 h2]
  exact hmax

/-- The dock window added in two different hosts and stores: both calls
leave the same `isManaged`. -/
theorem windowAdded_decision_inputs_witness :
    classifierInputsAgree dockWindow dockWindow ∧
      ((windowAdded sampleEffects dockWindow emptyStore).window dockWindow.id).isManaged =
        ((windowAdded maximizedEffects dockWindow (managedStore sampleSettings)).window
          dockWindow.id).isManaged :=
  ⟨⟨rfl, rfl, rfl, rfl, rfl, rfl, rfl, rfl⟩,
    (windowAdded_decision_inputs sampleEffects maximizedEffects dockWindow dockWindow emptyStore
      (managedStore sampleSettings) ⟨rfl, rfl, rfl, rfl, rfl, rfl, rfl, rfl⟩
      ⟨rfl, rfl, rfl, rfl, rfl, rfl, rfl, rfl, rfl⟩).1⟩

/-! ### Reading the blur property -/

theorem cardinalAt_of_lt (value : List Nat) (i : Nat) (h : 4 * i + 3 < value.length) :
    cardinalAt value i = some (cardinalValue value i) := by
  have h0 : 4 * i < value.length := by omega
  have h1 : 4 * i + 1 < value.length := by omega
  have h2 : 4 * i + 2 < value.length := by omega
  simp [cardinalAt, cardinalValue, List.getElem?_eq_getElem, h, h0, h1, h2]

theorem biUnion_Ico_succ_left (f : Nat → QRegion) (r : QRegion) (k n : Nat) (h : k < n) :
    (r ∪ f k) ∪ (Finset.Ico (k + 1) n).biUnion f = r ∪ (Finset.Ico k n).biUnion f := by
  ext p
  simp only [Finset.mem_union, Finset.mem_biUnion, Finset.mem_Ico]
  constructor
  · rintro ((hr | hk) | ⟨g, hg, hp⟩)
    · exact Or.inl hr
    · exact Or.inr ⟨k, ⟨le_refl k, h⟩, hk⟩
    · exact Or.inr ⟨g, ⟨by omega, hg.2⟩, hp⟩
  · rintro (hr | ⟨g, hg, hp⟩)
    · exact Or.inl (Or.inl hr)
    · by_cases hgk : g = k
      · subst hgk
        exact Or.inl (Or.inr hp)
      · exact Or.inr ⟨g, ⟨by omega, hg.2⟩, hp⟩

/-- The loop from round `k` on, for an array of `n` groups: the remaining
groups are added and exactly their cardinals are read. -/
theorem blurRectLoop_from (value : List Nat) (n : Nat) (hlen : value.length = 16 * n) :
    ∀ (m k fuel : Nat) (acc : BlurParse), k + m = n → m ≤ fuel →
      blurRectLoop value fuel (4 * k) acc =
        some { blur_region := acc.blur_region ∪ (Finset.Ico k n).biUnion (blurGroupRect value),
               reads := acc.reads ++ List.range' (4 * k) (4 * m) } := by
  intro m
  induction m with
  | zero =>
    intro k fuel acc hk _
    have hnot : ¬ 4 * k < value.length / 4 := by omega
    have hkn : k = n := by omega
    subst hkn
    cases fuel <;> simp [blurRectLoop, hnot]
  | succ m ih =>
    intro k fuel acc hk hf
    obtain ⟨f, rfl⟩ : ∃ f, fuel = f + 1 := ⟨fuel - 1, by omega⟩
    have hlt : 4 * k < value.length / 4 := by omega
    have c0 := cardinalAt_of_lt value (4 * k) (by omega)
    have c1 := cardinalAt_of_lt value (4 * k + 1) (by omega)
    have c2 := cardinalAt_of_lt value (4 * k + 2) (by omega)
    have c3 := cardinalAt_of_lt value (4 * k + 3) (by omega)
    have hnext : 4 * k + 4 = 4 * (k + 1) := by ring
    simp only [blurRectLoop, hlt, if_true, c0, c1, c2, c3]
    rw [hnext, ih (k + 1) f _ (by omega) (by omega)]
    congr 1
    simp only [BlurParse.mk.injEq]
    constructor
    · exact biUnion_Ico_succ_left (blurGroupRect value) acc.blur_region k n (by omega)
    · have h4 : [4 * k, 4 * k + 1, 4 * k + 2, 4 * k + 3] = List.range' (4 * k) 4 := by
        simp [List.range']
      have happ : List.range' (4 * k) 4 ++ List.range' (4 * k + 4) (4 * m) =
          List.range' (4 * k) (4 * (m + 1)) := by
        have h := List.range'_append (4 * k) 4 (4 * m) 1
        simp only [mul_one] at h
        exact h
      rw [List.append_assoc, h4, ← hnext, happ]

theorem cardinalsOf_drop (value : List Nat) (i : Nat) (h : 4 * i + 3 < value.length) :
    cardinalsOf (value.drop (4 * i)) =
      cardinalValue value i :: cardinalsOf (value.drop (4 * (i + 1))) := by
  have h0 : 4 * i < value.length := by omega
  have h1 : 4 * i + 1 < value.length := by omega
  have h2 : 4 * i + 2 < value.length := by omega
  rw [List.drop_eq_getElem_cons h0, List.drop_eq_getElem_cons h1,
    List.drop_eq_getElem_cons h2, List.drop_eq_getElem_cons h]
  simp [cardinalsOf, cardinalValue, List.getElem?_eq_getElem, h, h0, h1, h2]
  rfl

/-- The list form of the parse agrees with the union over the groups. -/
theorem addBlurRects_from (value : List Nat) (n : Nat) (hlen : value.length = 16 * n) :
    ∀ (m k : Nat) (r : QRegion), k + m = n →
      addBlurRects (cardinalsOf (value.drop (16 * k))) r =
        r ∪ (Finset.Ico k n).biUnion (blurGroupRect value) := by
  intro m
  induction m with
  | zero =>
    intro k r hk
    have hkn : k = n := by omega
    subst hkn
    rw [List.drop_eq_nil_of_le (by omega)]
    simp [cardinalsOf, addBlurRects]
  | succ m ih =>
    intro k r hk
    have e0 : 16 * k = 4 * (4 * k) := by ring
    have e1 : 4 * (4 * k + 1) = 4 * (4 * k + 1) := rfl
    rw [e0, cardinalsOf_drop value (4 * k) (by omega),
      cardinalsOf_drop value (4 * k + 1) (by omega),
      cardinalsOf_drop value (4 * k + 2) (by omega),
      cardinalsOf_drop value (4 * k + 3) (by omega)]
    have e2 : 4 * (4 * k + 3 + 1) = 16 * (k + 1) := by ring
    rw [e2]
    simp only [addBlurRects]
    rw [ih (k + 1) _ (by omega)]
    exact biUnion_Ico_succ_left (blurGroupRect value) r k n (by omega)

theorem readBlurProperty_of_groups (v : List Nat) (n : Nat) (hn : 0 < n)
    (hlen : v.length = 16 * n) :
    readBlurProperty (some v) =
      some { blur_region := (Finset.range n).biUnion (blurGroupRect v),
             reads := List.range (4 * n) } := by
  have hcond : v.length > 0 ∧ v.length % 16 = 0 := by omega
  have h := blurRectLoop_from v n hlen n 0 v.length { blur_region := ∅, reads := [] }
    (by omega) (by omega)
  simp only [readBlurProperty, hcond, and_self, if_true]
  rw [show (0 : Nat) = 4 * 0 from rfl, h, Finset.range_eq_Ico, List.range_eq_range']
  simp only [Finset.empty_union, List.nil_append, Nat.mul_zero]

theorem addBlurRects_of_groups (v : List Nat) (n : Nat) (hlen : v.length = 16 * n) :
    addBlurRects (cardinalsOf v) ∅ = (Finset.range n).biUnion (blurGroupRect v) := by
  have h := addBlurRects_from v n hlen n 0 ∅ (by omega)
  simp only [Nat.mul_zero, List.drop_zero, Finset.empty_union] at h
  rw [h, Finset.range_eq_Ico]

/-- C11: reading the blur property value as a byte sequence. When the value
is absent, empty, or its length is not a multiple of 16 bytes, the parsed
region is empty and no element of the value is read. When its length is a
positive multiple of 16 the parse returns, the parsed region is the union of
the rectangles (x, y, w, h) of the consecutive groups of four 32-bit
cardinals, exactly length/16 groups are consumed (the cardinals 0 to
4 * (length/16) - 1 are read, each once and in order), and every read lies
inside the value. The region is the one the embedding of `prePaintWindow`
starts from when no internal window overrides it. -/
theorem readBlurProperty_spec :
    readBlurProperty none = some { blur_region := ∅, reads := [] } ∧
      (∀ v : List Nat, v.length = 0 ∨ v.length % 16 ≠ 0 →
        readBlurProperty (some v) = some { blur_region := ∅, reads := [] }) ∧
      (∀ v : List Nat, 0 < v.length → v.length % 16 = 0 →
        ∃ p, readBlurProperty (some v) = some p ∧
          p.blur_region = (Finset.range (v.length / 16)).biUnion (blurGroupRect v) ∧
          p.reads = List.range (4 * (v.length / 16)) ∧
          p.reads.length = 4 * (v.length / 16) ∧
          (∀ i ∈ p.reads, 4 * i + 3 < v.length) ∧
          p.blur_region = addBlurRects (cardinalsOf v) ∅) ∧
      (∀ inp : BlurInputs, inp.internalBlur = none →
        ∃ p, readBlurProperty inp.propertyValue = some p ∧
          declaredBlurRegion inp =
            if inp.xcbConnection = true ∧ inp.blurAtom ≠ 0 then p.blur_region else ∅) := by
  have good : ∀ v : List Nat, 0 < v.length → v.length % 16 = 0 →
      readBlurProperty (some v) =
        some { blur_region := addBlurRects (cardinalsOf v) ∅,
               reads := List.range (4 * (v.length / 16)) } := by
    intro v hpos hmod
    have hlen : v.length = 16 * (v.length / 16) := by omega
    rw [readBlurProperty_of_groups v (v.length / 16) (by omega) hlen,
      addBlurRects_of_groups v (v.length / 16) hlen]
  have bad : ∀ v : List Nat, v.length = 0 ∨ v.length % 16 ≠ 0 →
      readBlurProperty (some v) = some { blur_region := ∅, reads := [] } := by
    intro v hv
    have hcond : ¬ (v.length > 0 ∧ v.length % 16 = 0) := by omega
    simp only [readBlurProperty, hcond, if_false]
  refine ⟨rfl, bad, ?_, ?_⟩
  · intro v hpos hmod
    have hlen : v.length = 16 * (v.length / 16) := by omega
    refine ⟨_, readBlurProperty_of_groups v (v.length / 16) (by omega) hlen, rfl, rfl,
      by simp, ?_, (addBlurRects_of_groups v (v.length / 16) hlen).symm⟩
    intro i hi
    simp only [List.mem_range] at hi
    omega
  · intro inp hint
    cases hv : inp.propertyValue with
    | none =>
      refine ⟨_, rfl, ?_⟩
      simp [declaredBlurRegion, hint, hv]
    | some v =>
      by_cases hcond : v.length > 0 ∧ v.length % 16 = 0
      · refine ⟨_, good v hcond.1 hcond.2, ?_⟩
        by_cases hx : inp.xcbConnection = true <;> by_cases ha : inp.blurAtom = 0 <;>
          simp [declaredBlurRegion, hint, hv, hcond, hx, ha]
      · refine ⟨_, bad v (by omega), ?_⟩
        by_cases hx : inp.xcbConnection = true <;> by_cases ha : inp.blurAtom = 0 <;>
          simp [declaredBlurRegion, hint, hv, hcond, hx, ha]

/-! ### Render state around drawWindow -/

theorem drawWindow_invalid (fx : Effects) (st : WindowStore) (wayland : Bool)
    (c : ScreenCache) (w : EffectWindow) (mask : Nat) (rs : RenderState)
    (h : isValidWindow fx st w mask = false) :
    drawWindow fx st wayland c w mask rs = some (hostDrawWindow w rs) := by
  unfold drawWindow
  rw [if_pos h]

/-- The render state `drawWindow` leaves for a valid window: the shader stack
as before and unit 0 active, unit 0 without a texture, and the dark outline,
light outline and mask textures on the units 3, 2 and 1, where the three
`unbind` calls, made with unit 0 active, do not reach them. -/
theorem drawWindow_valid (fx : Effects) (st : WindowStore) (wayland : Bool)
    (c : ScreenCache) (w : EffectWindow) (mask : Nat) (rs : RenderState)
    (settings : InternalSettings) (d l m : QImage)
    (hv : isValidWindow fx st w mask = true)
    (hs : (st.window w.id).settings = some settings)
    (hd : (c.screen (screenKey wayland w.screen)).darkOutlineTex = some d)
    (hl : (c.screen (screenKey wayland w.screen)).lightOutlineTex = some l)
    (hm : (c.screen (screenKey wayland w.screen)).maskTex = some m) :
    ∃ rs1, drawWindow fx st wayland c w mask rs = some rs1 ∧
      rs1.shaderStack = rs.shaderStack ∧ rs1.activeTexture = 0 ∧
      rs1.boundTexture 0 = none ∧ rs1.boundTexture 1 = some m ∧
      rs1.boundTexture 2 = some l ∧ rs1.boundTexture 3 = some d ∧
      (∀ u, 3 < u → rs1.boundTexture u = rs.boundTexture u) ∧
      rs1.drawCalls = rs.drawCalls ++ [DrawCall.offscreen w.id] := by
  unfold drawWindow
  rw [if_neg (by simp [hv])]
  simp only [hs, hd, hl, hm]
  refine ⟨_, rfl, ?_, ?_, ?_, ?_, ?_, ?_, ?_, ?_⟩
  · simp [popShader, unbindTexture, offscreenDrawWindow, glActiveTexture, bindTexture,
      setUniform, pushShader]
  · simp [popShader, unbindTexture, offscreenDrawWindow, glActiveTexture, bindTexture,
      setUniform, pushShader]
  · simp [popShader, unbindTexture, offscreenDrawWindow, glActiveTexture, bindTexture,
      setUniform, pushShader]
  · simp [popShader, unbindTexture, offscreenDrawWindow, glActiveTexture, bindTexture,
      setUniform, pushShader]
  · simp [popShader, unbindTexture, offscreenDrawWindow, glActiveTexture, bindTexture,
      setUniform, pushShader]
  · simp [popShader, unbindTexture, offscreenDrawWindow, glActiveTexture, bindTexture,
      setUniform, pushShader]
  · intro u hu
    have h0 : u ≠ 0 := by omega
    have h1 : u ≠ 1 := by omega
    have h2 : u ≠ 2 := by omega
    have h3 : u ≠ 3 := by omega
    simp [popShader, unbindTexture, offscreenDrawWindow, glActiveTexture, bindTexture,
      setUniform, pushShader, h0, h1, h2, h3]
  · simp [popShader, unbindTexture, offscreenDrawWindow, glActiveTexture, bindTexture,
      setUniform, pushShader]

/-- C12 (the code at the failing input): `drawWindow` for the valid sample
window, from a render state with no shader pushed, unit 0 active and no
texture bound, returns with the shader stack as before and unit 0 active, but
with the mask, light outline and dark outline textures of the screen still
bound to the units 1, 2 and 3. For an invalid window the call is the default
window paint of the host and nothing else. -/
theorem drawWindow_leaves_textures_bound :
    (∃ rs1 m l d,
        drawWindow sampleEffects (managedStore sampleSettings) false
          (eightRadiusCache samplePlatform) blurWindow 0 cleanRenderState = some rs1 ∧
        rs1.shaderStack = cleanRenderState.shaderStack ∧ rs1.activeTexture = 0 ∧
        ((eightRadiusCache samplePlatform).screen none).maskTex = some m ∧
        ((eightRadiusCache samplePlatform).screen none).lightOutlineTex = some l ∧
        ((eightRadiusCache samplePlatform).screen none).darkOutlineTex = some d ∧
        rs1.boundTexture 1 = some m ∧ rs1.boundTexture 2 = some l ∧
        rs1.boundTexture 3 = some d) ∧
      ∀ (fx : Effects) (st : WindowStore) (wayland : Bool) (c : ScreenCache)
        (w : EffectWindow) (mask : Nat) (rs : RenderState),
        isValidWindow fx st w mask = false →
          drawWindow fx st wayland c w mask rs = some (hostDrawWindow w rs) ∧
          (hostDrawWindow w rs).shaderStack = rs.shaderStack ∧
          (hostDrawWindow w rs).activeTexture = rs.activeTexture ∧
          (hostDrawWindow w rs).boundTexture = rs.boundTexture ∧
          (hostDrawWindow w rs).uniforms = rs.uniforms := by
  constructor
  · have hscr := (construct_single samplePlatform (settingsWithRadius 8) 0).2.2
    have hkey : screenKey false blurWindow.screen = none := rfl
    obtain ⟨rs1, h1, h2, h3, _, h5, h6, h7, _, _⟩ :=
      drawWindow_valid sampleEffects (managedStore sampleSettings) false
        (eightRadiusCache samplePlatform) blurWindow 0 cleanRenderState sampleSettings
        _ _ _ isValidWindow_blurWindow rfl
        (by rw [hkey, eightRadiusCache, hscr]; rfl)
        (by rw [hkey, eightRadiusCache, hscr]; rfl)
        (by rw [hkey, eightRadiusCache, hscr]; rfl)
    refine ⟨rs1, _, _, _, h1, h2, h3, ?_, ?_, ?_, h5, h6, h7⟩
    · rw [eightRadiusCache, hscr]
      rfl
    · rw [eightRadiusCache, hscr]
      rfl
    · rw [eightRadiusCache, hscr]
      rfl
  · intro fx st wayland c w mask rs h
    exact ⟨drawWindow_invalid fx st wayland c w mask rs h, rfl, rfl, rfl, rfl⟩

end CornersShader
